import Mathlib

/-!
Verification of the checkpoint conversion module
`dolomite_engine/hf_models/model_conversion/granitemoesharedhybrid.py`.

Tensors are embedded as nested lists (`Tensor`), safetensors weight files as
partial maps from tensor names to tensors, and the conversion functions as
Lean functions returning `Option`/`Except` (a `none`/`error` result models a
Python exception).  All definitions are translated from the Python source;
the few helpers that the source imports from outside this repository
(`split_query_key_value_tensor_for_attention`, `get_attention_head_type`,
the config classes and their `check_equal_*` methods) are modelled abstractly
or from the spec, as marked in their doc comments.
-/

/-- A (possibly multi-dimensional) tensor, embedded as nested lists of
scalars.  A real `torch.Tensor` corresponds to a uniformly-shaped value. -/
inductive Tensor (α : Type) where
  | scalar : α → Tensor α
  | dim : List (Tensor α) → Tensor α

/-- Maps a fallible function over a list, failing if any element fails;
this models a loop whose body may raise. -/
def optMap {α β : Type} (f : α → Option β) : List α → Option (List β)
  | [] => some []
  | a :: l => do
      let b ← f a
      let bs ← optMap f l
      pure (b :: bs)

/-- Embedding of `weight.chunk(2, dim=dim)` followed by unpacking into
exactly two values.  `torch.chunk(2, dim)` splits the size `n` along `dim`
into pieces of size `ceil(n / 2)`; when `n = 1` it produces a single chunk
and the Python tuple unpacking raises, which is modelled by `none`.  A
0-size dimension is special-cased by torch to two empty chunks, so the
unpacking succeeds there.  Chunking along a higher dimension chunks every
slice at the same point. -/
def chunk2 {α : Type} : Nat → Tensor α → Option (Tensor α × Tensor α)
  | 0, .dim l =>
      if l.length = 1 then none
      else some (.dim (l.take ((l.length + 1) / 2)), .dim (l.drop ((l.length + 1) / 2)))
  | d + 1, .dim l =>
      (optMap (chunk2 d) l).map fun ps => (.dim (ps.map Prod.fst), .dim (ps.map Prod.snd))
  | _, .scalar _ => none

/-- Embedding of `torch.cat([y, x], dim=dim)` (for two arguments):
concatenation along the given dimension. -/
def cat2 {α : Type} : Nat → Tensor α → Tensor α → Option (Tensor α)
  | 0, .dim l₁, .dim l₂ => some (.dim (l₁ ++ l₂))
  | d + 1, .dim l₁, .dim l₂ =>
      if l₁.length = l₂.length then
        (optMap (fun p => cat2 d p.1 p.2) (l₁.zip l₂)).map Tensor.dim
      else none
  | _, _, _ => none

/-- Embedding of `_split_and_reorder_for_glu` (source lines 208-211):
`x, y = weight.chunk(2, dim=dim); return torch.cat([y, x], dim=dim)`. -/
def splitAndReorderForGlu {α : Type} (weight : Tensor α) (dim : Nat) : Option (Tensor α) :=
  (chunk2 dim weight).bind fun xy => cat2 dim xy.2 xy.1

/-- Direct recursive description of `splitAndReorderForGlu`, used as a proof
vehicle: swap the two chunks at depth `d`. -/
def gluByDim {α : Type} : Nat → Tensor α → Option (Tensor α)
  | 0, .dim l =>
      if l.length = 1 then none
      else some (.dim (l.drop ((l.length + 1) / 2) ++ l.take ((l.length + 1) / 2)))
  | d + 1, .dim l => (optMap (gluByDim d) l).map Tensor.dim
  | _, .scalar _ => none

/-- The shape of a tensor: `HasShape t s` says the nested lists of `t` are
uniform with dimension sizes `s`. -/
inductive HasShape {α : Type} : Tensor α → List Nat → Prop
  | scalar (a : α) : HasShape (.scalar a) []
  | dim {l : List (Tensor α)} {s : List Nat} (hmem : ∀ t ∈ l, HasShape t s) :
      HasShape (.dim l) (l.length :: s)

/-- Whether the tensor's size along dimension `d` is even (at every fiber
of the dimensions above `d`). -/
def evenAlong {α : Type} : Nat → Tensor α → Bool
  | 0, .dim l => decide (l.length % 2 = 0)
  | d + 1, .dim l => l.all (evenAlong d)
  | _, .scalar _ => false

/-- Little-endian decimal digits of `n`, with a structural fuel argument so
that the definition reduces in the kernel.  For `fuel ≥ n` it yields the
usual decimal digits (empty for `n = 0`). -/
def natDigitsRev : Nat → Nat → List Char
  | 0, _ => []
  | fuel + 1, n => if n = 0 then [] else Nat.digitChar (n % 10) :: natDigitsRev fuel (n / 10)

/-- Decimal rendering of a natural number, the embedding of Python's
`str(layer_idx)` inside an f-string. -/
def natStr (n : Nat) : String :=
  if n = 0 then "0" else ⟨(natDigitsRev n n).reverse⟩

/-- Source-side per-layer tensor name `transformer.h.{i}{suffix}`. -/
def srcName (i : Nat) (suffix : String) : String :=
  "transformer.h." ++ natStr i ++ suffix

/-- Target-side per-layer tensor name `model.layers.{i}{suffix}`. -/
def tgtName (i : Nat) (suffix : String) : String :=
  "model.layers." ++ natStr i ++ suffix

/-- The per-layer state-dict entries that are produced unconditionally
(source lines 136-152): two layer norms, the MoE router, the gated-MLP
input projection (reordered for GLU along dim 1) and output projection. -/
def layerBase {α : Type} (swm : String → Option (Tensor α)) (i : Nat) :
    Option (List (String × Tensor α)) := do
  let ln1 ← swm (srcName i ".ln_1.weight")
  let ln2 ← swm (srcName i ".ln_2.weight")
  let gate ← swm (srcName i ".mlp_block.gate.weight")
  let cfc ← swm (srcName i ".mlp_block.c_fc.weight")
  let moeIn ← splitAndReorderForGlu cfc 1
  let cproj ← swm (srcName i ".mlp_block.c_proj.weight")
  pure [(tgtName i ".input_layernorm.weight", ln1),
        (tgtName i ".post_attention_layernorm.weight", ln2),
        (tgtName i ".block_sparse_moe.router.layer.weight", gate),
        (tgtName i ".block_sparse_moe.input_linear.weight", moeIn),
        (tgtName i ".block_sparse_moe.output_linear.weight", cproj)]

/-- The per-layer sequence-mixer entries (source lines 154-194).  Reading
`seq_mixer_block_types[layer_idx]` out of range raises, hence the `get?`
bind.  The imported helper `split_query_key_value_tensor_for_attention` is
not part of this repository and is passed in abstractly as `split`. -/
def layerMixer {α : Type} (swm : String → Option (Tensor α)) (types : List String)
    (numHeads numKeyValueHeads headDim : Nat)
    (split : Tensor α → Nat → Nat → Nat → String → Option (Tensor α × Tensor α × Tensor α))
    (attentionHeadType : String) (i : Nat) : Option (List (String × Tensor α)) := do
  let bt ← types.get? i
  if bt = "mamba" then do
    let conv1dW ← swm (srcName i ".sequence_mixer.conv1d.weight")
    let conv1dB ← swm (srcName i ".sequence_mixer.conv1d.bias")
    let inProj ← swm (srcName i ".sequence_mixer.in_proj.weight")
    let dtBias ← swm (srcName i ".sequence_mixer.dt_bias")
    let aLog ← swm (srcName i ".sequence_mixer.A_log")
    let dTensor ← swm (srcName i ".sequence_mixer.D")
    let outProj ← swm (srcName i ".sequence_mixer.out_proj.weight")
    let normW ← swm (srcName i ".sequence_mixer.norm.weight")
    pure [(tgtName i ".mamba.conv1d.weight", conv1dW),
          (tgtName i ".mamba.conv1d.bias", conv1dB),
          (tgtName i ".mamba.in_proj.weight", inProj),
          (tgtName i ".mamba.dt_bias", dtBias),
          (tgtName i ".mamba.A_log", aLog),
          (tgtName i ".mamba.D", dTensor),
          (tgtName i ".mamba.out_proj.weight", outProj),
          (tgtName i ".mamba.norm.weight", normW)]
  else if bt = "attention" then do
    let cattn ← swm (srcName i ".sequence_mixer.c_attn.weight")
    let qkv ← split cattn numHeads numKeyValueHeads headDim attentionHeadType
    let oproj ← swm (srcName i ".sequence_mixer.c_proj.weight")
    pure [(tgtName i ".self_attn.q_proj.weight", qkv.1),
          (tgtName i ".self_attn.k_proj.weight", qkv.2.1),
          (tgtName i ".self_attn.v_proj.weight", qkv.2.2),
          (tgtName i ".self_attn.o_proj.weight", oproj)]
  else pure []

/-- The per-layer shared-MLP entries, produced only when the shared input
projection exists (source lines 196-203); its GLU reorder is along dim 0. -/
def layerShared {α : Type} (swm : String → Option (Tensor α)) (i : Nat) :
    Option (List (String × Tensor α)) :=
  match swm (srcName i ".mlp_block.c_fc_shared.weight") with
  | none => some []
  | some t => do
      let sharedIn ← splitAndReorderForGlu t 0
      let sharedOut ← swm (srcName i ".mlp_block.c_proj_shared.weight")
      pure [(tgtName i ".shared_mlp.input_linear.weight", sharedIn),
            (tgtName i ".shared_mlp.output_linear.weight", sharedOut)]

/-- One iteration of the `for layer_idx in range(num_layers)` loop of
`_export_state_dict_to_huggingface`, in source order. -/
def exportLayer {α : Type} (swm : String → Option (Tensor α)) (types : List String)
    (numHeads numKeyValueHeads headDim : Nat)
    (split : Tensor α → Nat → Nat → Nat → String → Option (Tensor α × Tensor α × Tensor α))
    (attentionHeadType : String) (i : Nat) : Option (List (String × Tensor α)) := do
  let base ← layerBase swm i
  let mixer ← layerMixer swm types numHeads numKeyValueHeads headDim split attentionHeadType i
  let shared ← layerShared swm i
  pure (base ++ mixer ++ shared)

/-- Runs the layer loop for layers `0 .. n-1` in order, concatenating the
produced entries in insertion order. -/
def exportLayers {α : Type} (f : Nat → Option (List (String × Tensor α))) :
    Nat → Option (List (String × Tensor α))
  | 0 => some []
  | n + 1 => do
      let rest ← exportLayers f n
      let cur ← f n
      pure (rest ++ cur)

/-- Embedding of `_export_state_dict_to_huggingface` (source lines 118-205).
The state dict is represented as the list of `(name, tensor)` entries in
insertion order; the produced keys are pairwise distinct, so the list
determines the Python dict.  `swm` models the `SafeTensorsWeightsManager`
(`get_tensor` is application, `has_tensor` is `isSome`); `split` and
`getAttentionHeadType` model the two helpers imported from
`modeling_utils`, which are outside this repository. -/
def exportStateDictToHuggingface {α : Type}
    (swm : String → Option (Tensor α)) (numLayers : Nat) (seqMixerBlockTypes : List String)
    (numHeads numKeyValueHeads headDim : Nat)
    (split : Tensor α → Nat → Nat → Nat → String → Option (Tensor α × Tensor α × Tensor α))
    (getAttentionHeadType : Nat → Nat → String) : Option (List (String × Tensor α)) := do
  let wte ← swm "transformer.wte.weight"
  let lnf ← swm "transformer.ln_f.weight"
  let layers ← exportLayers
    (exportLayer swm seqMixerBlockTypes numHeads numKeyValueHeads headDim split
      (getAttentionHeadType numHeads numKeyValueHeads)) numLayers
  pure ((match swm "lm_head.weight" with
    | some t => [("model.embed_tokens.weight", wte), ("model.norm.weight", lnf),
                 ("lm_head.weight", t)]
    | none => [("model.embed_tokens.weight", wte), ("model.norm.weight", lnf)]) ++ layers)

/-- One sequence-mixer block of the source configuration, with the fields
read by this module.  Modelled from the spec: the `GPTDolomiteConfig` class
lives outside this repository; blocks carry a `sequence_mixer_type` and the
per-type scalar fields accessed at source lines 66-106. -/
structure SequenceMixerBlock where
  sequence_mixer_type : String
  add_bias : Bool
  num_attention_heads : Nat
  num_key_value_heads : Nat
  dropout : ℚ
  attention_multiplier : ℚ
  num_groups : Nat
  num_heads : Nat
  state_size : Nat
  conv_kernel_size : Nat
  chunk_size : Nat
  use_conv_bias : Bool

/-- One MLP block of the source configuration, with the fields read by this
module.  Modelled from the spec, like `SequenceMixerBlock`. -/
structure MLPBlock where
  add_bias : Bool
  activation_function : String
  mlp_type : String
  shared_intermediate_size : Option Nat
  intermediate_size : Nat
  num_experts : Nat
  num_experts_per_tok : Nat

/-- The source configuration schema, restricted to the fields this module
reads.  Modelled from the spec: the class itself is defined outside this
repository.  Python floats are represented as rationals (they are only
copied, never computed with), nullable fields as `Option`. -/
structure GPTDolomiteConfig where
  normalization_function : String
  vocab_size : Nat
  max_position_embeddings : Nat
  hidden_size : Nat
  num_layers : Nat
  layer_norm_epsilon : ℚ
  use_cache : Bool
  tie_word_embeddings : Bool
  initializer_range : ℚ
  rope_theta : ℚ
  rope_scaling : Option String
  router_aux_loss_coef : ℚ
  bos_token_id : Option Nat
  eos_token_id : Option Nat
  pad_token_id : Option Nat
  m_emb : Option ℚ
  m_residual : Option ℚ
  m_width : Option ℚ
  position_embedding_type : String
  init_method : String
  sequence_mixer_blocks : List SequenceMixerBlock
  mlp_blocks : List MLPBlock

/-- The target configuration schema: a record of the keyword arguments the
source passes to the external `GraniteMoeHybridConfig` constructor (source
lines 72-113).  Modelled from the spec: the constructor itself belongs to an
external library and is treated as a plain record former. -/
structure GraniteMoeHybridConfig where
  vocab_size : Nat
  max_position_embeddings : Nat
  hidden_size : Nat
  num_hidden_layers : Nat
  num_attention_heads : Option Nat
  shared_intermediate_size : Nat
  num_key_value_heads : Option Nat
  intermediate_size : Nat
  hidden_act : String
  rms_norm_eps : ℚ
  use_cache : Bool
  attention_bias : Option Bool
  tie_word_embeddings : Bool
  initializer_range : ℚ
  rope_theta : ℚ
  rope_scaling : Option String
  attention_dropout : Option ℚ
  num_local_experts : Nat
  num_experts_per_tok : Nat
  router_aux_loss_coef : ℚ
  bos_token_id : Option Nat
  eos_token_id : Option Nat
  pad_token_id : Option Nat
  embedding_multiplier : ℚ
  residual_multiplier : ℚ
  logits_scaling : ℚ
  attention_multiplier : Option ℚ
  mamba_n_groups : Option Nat
  mamba_n_heads : Option Nat
  mamba_d_state : Option Nat
  mamba_d_conv : Option Nat
  mamba_chunk_size : Option Nat
  mamba_conv_bias : Option Bool
  mamba_proj_bias : Option Bool
  layer_types : List String
  normalization_function : String
  position_embedding_type : String
  init_method : String
  architectures : List String

/-- Modelled from the spec: `check_equal_for_all_and_get_value` is a method
of the dolomite config classes, not part of this repository.  Following its
call sites (source lines 66-70, 80, 90, 91), it returns the value of the
named field when it is equal across all blocks (and equal to the expected
value when one is supplied), raising otherwise; `vals` is the list of the
field's values over the blocks. -/
def checkEqualForAllAndGetValue {α : Type} [DecidableEq α] (vals : List α)
    (expected : Option α) : Except String α :=
  match vals with
  | [] => .error "no blocks"
  | v :: rest =>
      if rest.all (fun x => decide (x = v)) then
        match expected with
        | none => .ok v
        | some e => if v = e then .ok v else .error "unexpected value"
      else .error "blocks disagree"

/-- Modelled from the spec: `check_equal_for_all_seq_mixer_and_get_value` is
a method of the dolomite config classes, not part of this repository.
Following its call sites (source lines 77-106), it restricts to the blocks
of the given `sequence_mixer_type`, checks the named field is equal across
them and returns it (`none` when no block has that type). -/
def checkEqualForAllSeqMixerAndGetValue {α : Type} [DecidableEq α]
    (blocks : List SequenceMixerBlock) (sequenceMixerType : String)
    (f : SequenceMixerBlock → α) : Except String (Option α) :=
  match (blocks.filter (fun b => decide (b.sequence_mixer_type = sequenceMixerType))).map f with
  | [] => .ok none
  | v :: rest =>
      if rest.all (fun x => decide (x = v)) then .ok (some v)
      else .error "blocks disagree"

/-- Embedding of `_get_sequence_mixer_block_types` (source lines 46-61):
walks `sequence_mixer_blocks` in order, renaming the type `mamba2` to
`mamba` and `softmax_attention` to `attention`. -/
def getSequenceMixerBlockTypes (config : GPTDolomiteConfig) : List String :=
  config.sequence_mixer_blocks.foldl
    (fun acc block =>
      acc ++ [if block.sequence_mixer_type = "mamba2" then "mamba"
              else if block.sequence_mixer_type = "softmax_attention" then "attention"
              else block.sequence_mixer_type])
    []

/-- The values produced by the `check_equal_*` calls evaluated among the
keyword arguments of the `GraniteMoeHybridConfig` constructor (source lines
77-106), in evaluation order. -/
structure KwargChecks where
  num_attention_heads : Option Nat
  num_key_value_heads : Option Nat
  intermediate_size : Nat
  attention_bias : Option Bool
  attention_dropout : Option ℚ
  num_local_experts : Nat
  num_experts_per_tok : Nat
  attention_multiplier : Option ℚ
  mamba_n_groups : Option Nat
  mamba_n_heads : Option Nat
  mamba_d_state : Option Nat
  mamba_d_conv : Option Nat
  mamba_chunk_size : Option Nat
  mamba_conv_bias : Option Bool
  mamba_proj_bias : Option Bool

/-- Runs, in source order, the fallible `check_equal_*` calls that occur in
the keyword arguments of the `GraniteMoeHybridConfig` constructor. -/
def exportConfigKwargChecks (config : GPTDolomiteConfig) : Except String KwargChecks := do
  let nah ← checkEqualForAllSeqMixerAndGetValue config.sequence_mixer_blocks
    "softmax_attention" (fun b => b.num_attention_heads)
  let nkv ← checkEqualForAllSeqMixerAndGetValue config.sequence_mixer_blocks
    "softmax_attention" (fun b => b.num_key_value_heads)
  let isz ← checkEqualForAllAndGetValue (config.mlp_blocks.map (fun b => b.intermediate_size)) none
  let ab ← checkEqualForAllSeqMixerAndGetValue config.sequence_mixer_blocks
    "softmax_attention" (fun b => b.add_bias)
  let ad ← checkEqualForAllSeqMixerAndGetValue config.sequence_mixer_blocks
    "softmax_attention" (fun b => b.dropout)
  let nle ← checkEqualForAllAndGetValue (config.mlp_blocks.map (fun b => b.num_experts)) none
  let net ← checkEqualForAllAndGetValue
    (config.mlp_blocks.map (fun b => b.num_experts_per_tok)) none
  let am ← checkEqualForAllSeqMixerAndGetValue config.sequence_mixer_blocks
    "softmax_attention" (fun b => b.attention_multiplier)
  let mg ← checkEqualForAllSeqMixerAndGetValue config.sequence_mixer_blocks
    "mamba2" (fun b => b.num_groups)
  let mh ← checkEqualForAllSeqMixerAndGetValue config.sequence_mixer_blocks
    "mamba2" (fun b => b.num_heads)
  let ms ← checkEqualForAllSeqMixerAndGetValue config.sequence_mixer_blocks
    "mamba2" (fun b => b.state_size)
  let mc ← checkEqualForAllSeqMixerAndGetValue config.sequence_mixer_blocks
    "mamba2" (fun b => b.conv_kernel_size)
  let mcs ← checkEqualForAllSeqMixerAndGetValue config.sequence_mixer_blocks
    "mamba2" (fun b => b.chunk_size)
  let mcb ← checkEqualForAllSeqMixerAndGetValue config.sequence_mixer_blocks
    "mamba2" (fun b => b.use_conv_bias)
  let mpb ← checkEqualForAllSeqMixerAndGetValue config.sequence_mixer_blocks
    "mamba2" (fun b => b.add_bias)
  pure { num_attention_heads := nah, num_key_value_heads := nkv, intermediate_size := isz,
         attention_bias := ab, attention_dropout := ad, num_local_experts := nle,
         num_experts_per_tok := net, attention_multiplier := am, mamba_n_groups := mg,
         mamba_n_heads := mh, mamba_d_state := ms, mamba_d_conv := mc,
         mamba_chunk_size := mcs, mamba_conv_bias := mcb, mamba_proj_bias := mpb }

/-- Embedding of `_export_config_to_huggingface` (source lines 63-115): the
`assert` on `normalization_function`, the five whole-model checks of lines
66-70, then the constructor whose fallible keyword arguments are evaluated
in order by `exportConfigKwargChecks`. -/
def exportConfigToHuggingface (config : GPTDolomiteConfig) :
    Except String GraniteMoeHybridConfig := do
  if config.normalization_function = "rmsnorm" then pure ()
  else throw "assert config.normalization_function == rmsnorm"
  let _ ← checkEqualForAllAndGetValue
    (config.sequence_mixer_blocks.map (fun b => b.add_bias)) (some false)
  let _ ← checkEqualForAllAndGetValue (config.mlp_blocks.map (fun b => b.add_bias)) (some false)
  let _ ← checkEqualForAllAndGetValue
    (config.mlp_blocks.map (fun b => b.activation_function)) (some "swiglu")
  let _ ← checkEqualForAllAndGetValue (config.mlp_blocks.map (fun b => b.mlp_type)) (some "MoE")
  let sharedIntermediateSize ← checkEqualForAllAndGetValue
    (config.mlp_blocks.map (fun b => b.shared_intermediate_size)) none
  let checks ← exportConfigKwargChecks config
  pure {
    vocab_size := config.vocab_size
    max_position_embeddings := config.max_position_embeddings
    hidden_size := config.hidden_size
    num_hidden_layers := config.num_layers
    num_attention_heads := checks.num_attention_heads
    shared_intermediate_size := match sharedIntermediateSize with | none => 0 | some v => v
    num_key_value_heads := checks.num_key_value_heads
    intermediate_size := checks.intermediate_size
    hidden_act := "silu"
    rms_norm_eps := config.layer_norm_epsilon
    use_cache := config.use_cache
    attention_bias := checks.attention_bias
    tie_word_embeddings := config.tie_word_embeddings
    initializer_range := config.initializer_range
    rope_theta := config.rope_theta
    rope_scaling := config.rope_scaling
    attention_dropout := checks.attention_dropout
    num_local_experts := checks.num_local_experts
    num_experts_per_tok := checks.num_experts_per_tok
    router_aux_loss_coef := config.router_aux_loss_coef
    bos_token_id := config.bos_token_id
    eos_token_id := config.eos_token_id
    pad_token_id := config.pad_token_id
    embedding_multiplier := match config.m_emb with | none => 1 | some v => v
    residual_multiplier := match config.m_residual with | none => 1 | some v => v
    logits_scaling := match config.m_width with | none => 1 | some v => v
    attention_multiplier := checks.attention_multiplier
    mamba_n_groups := checks.mamba_n_groups
    mamba_n_heads := checks.mamba_n_heads
    mamba_d_state := checks.mamba_d_state
    mamba_d_conv := checks.mamba_d_conv
    mamba_chunk_size := checks.mamba_chunk_size
    mamba_conv_bias := checks.mamba_conv_bias
    mamba_proj_bias := checks.mamba_proj_bias
    layer_types := getSequenceMixerBlockTypes config
    normalization_function := config.normalization_function
    position_embedding_type := config.position_embedding_type
    init_method := config.init_method
    architectures := ["GraniteMoeHybridForCausalLM"]
  }

/-- Value of a little-endian list of decimal digit characters; used to show
that the decimal rendering is injective. -/
def digitsVal : List Char → Nat
  | [] => 0
  | c :: rest => (c.toNat - 48) + 10 * digitsVal rest

/-- A sample attention sequence-mixer block used to evaluate the config
export on concrete data. -/
def wBlockAttn : SequenceMixerBlock :=
  { sequence_mixer_type := "softmax_attention", add_bias := false,
    num_attention_heads := 2, num_key_value_heads := 1, dropout := 0,
    attention_multiplier := 1, num_groups := 1, num_heads := 2, state_size := 4,
    conv_kernel_size := 2, chunk_size := 8, use_conv_bias := true }

/-- A sample mamba2 sequence-mixer block used to evaluate the config export
on concrete data. -/
def wBlockMamba : SequenceMixerBlock :=
  { sequence_mixer_type := "mamba2", add_bias := false,
    num_attention_heads := 0, num_key_value_heads := 0, dropout := 0,
    attention_multiplier := 1, num_groups := 1, num_heads := 4, state_size := 16,
    conv_kernel_size := 4, chunk_size := 64, use_conv_bias := true }

/-- A sample MoE MLP block used to evaluate the config export on concrete
data. -/
def wMLPBlock : MLPBlock :=
  { add_bias := false, activation_function := "swiglu", mlp_type := "MoE",
    shared_intermediate_size := none, intermediate_size := 8, num_experts := 4,
    num_experts_per_tok := 2 }

/-- A concrete source configuration on which the config export succeeds. -/
def wConfig : GPTDolomiteConfig :=
  { normalization_function := "rmsnorm", vocab_size := 32,
    max_position_embeddings := 16, hidden_size := 8, num_layers := 2,
    layer_norm_epsilon := 1 / 100000, use_cache := true, tie_word_embeddings := false,
    initializer_range := 1 / 50, rope_theta := 10000, rope_scaling := none,
    router_aux_loss_coef := 1 / 1000, bos_token_id := some 0, eos_token_id := some 1,
    pad_token_id := none, m_emb := none, m_residual := some 2, m_width := none,
    position_embedding_type := "rope", init_method := "normal",
    sequence_mixer_blocks := [wBlockAttn, wBlockMamba],
    mlp_blocks := [wMLPBlock, wMLPBlock] }

/-- The same source configuration with `m_emb = 1` instead of `None`; both
export to the same target configuration. -/
def wConfigMemb1 : GPTDolomiteConfig := { wConfig with m_emb := some 1 }

/-- A concrete source configuration whose normalization function is not
`rmsnorm`, so the config export trips the assertion. -/
def wConfigBad : GPTDolomiteConfig := { wConfig with normalization_function := "layernorm" }

/-- The target configuration produced by exporting `wConfig`. -/
def wGranite : GraniteMoeHybridConfig :=
  { vocab_size := 32, max_position_embeddings := 16, hidden_size := 8,
    num_hidden_layers := 2, num_attention_heads := some 2, shared_intermediate_size := 0,
    num_key_value_heads := some 1, intermediate_size := 8, hidden_act := "silu",
    rms_norm_eps := 1 / 100000, use_cache := true, attention_bias := some false,
    tie_word_embeddings := false, initializer_range := 1 / 50, rope_theta := 10000,
    rope_scaling := none, attention_dropout := some 0, num_local_experts := 4,
    num_experts_per_tok := 2, router_aux_loss_coef := 1 / 1000, bos_token_id := some 0,
    eos_token_id := some 1, pad_token_id := none, embedding_multiplier := 1,
    residual_multiplier := 2, logits_scaling := 1, attention_multiplier := some 1,
    mamba_n_groups := some 1, mamba_n_heads := some 4, mamba_d_state := some 16,
    mamba_d_conv := some 4, mamba_chunk_size := some 64, mamba_conv_bias := some true,
    mamba_proj_bias := some false, layer_types := ["attention", "mamba"],
    normalization_function := "rmsnorm", position_embedding_type := "rope",
    init_method := "normal", architectures := ["GraniteMoeHybridForCausalLM"] }

/-- A concrete safetensors weight file for a two-layer model: layer 0 uses
attention, layer 1 uses mamba and a shared MLP. -/
def wWeights : List (String × Tensor Int) :=
  [("transformer.wte.weight", .scalar 0),
   ("transformer.ln_f.weight", .scalar 1),
   ("transformer.h.0.ln_1.weight", .scalar 2),
   ("transformer.h.0.ln_2.weight", .scalar 3),
   ("transformer.h.0.mlp_block.gate.weight", .scalar 4),
   ("transformer.h.0.mlp_block.c_fc.weight", .dim [.dim [.scalar 5, .scalar 6]]),
   ("transformer.h.0.mlp_block.c_proj.weight", .scalar 7),
   ("transformer.h.0.sequence_mixer.c_attn.weight", .scalar 8),
   ("transformer.h.0.sequence_mixer.c_proj.weight", .scalar 9),
   ("transformer.h.1.ln_1.weight", .scalar 10),
   ("transformer.h.1.ln_2.weight", .scalar 11),
   ("transformer.h.1.mlp_block.gate.weight", .scalar 12),
   ("transformer.h.1.mlp_block.c_fc.weight", .dim [.dim [.scalar 13, .scalar 14]]),
   ("transformer.h.1.mlp_block.c_proj.weight", .scalar 15),
   ("transformer.h.1.sequence_mixer.conv1d.weight", .scalar 16),
   ("transformer.h.1.sequence_mixer.conv1d.bias", .scalar 17),
   ("transformer.h.1.sequence_mixer.in_proj.weight", .scalar 18),
   ("transformer.h.1.sequence_mixer.dt_bias", .scalar 19),
   ("transformer.h.1.sequence_mixer.A_log", .scalar 20),
   ("transformer.h.1.sequence_mixer.D", .scalar 21),
   ("transformer.h.1.sequence_mixer.out_proj.weight", .scalar 22),
   ("transformer.h.1.sequence_mixer.norm.weight", .scalar 23),
   ("transformer.h.1.mlp_block.c_fc_shared.weight", .dim [.scalar 24, .scalar 25]),
   ("transformer.h.1.mlp_block.c_proj_shared.weight", .scalar 26)]

/-- The weights manager over `wWeights`. -/
def wSwm : String → Option (Tensor Int) := fun s => List.lookup s wWeights

/-- A concrete stand-in for the abstract QKV split helper. -/
def wSplit : Tensor Int → Nat → Nat → Nat → String →
    Option (Tensor Int × Tensor Int × Tensor Int) :=
  fun t _ _ _ _ => some (t, t, t)

/-- A concrete stand-in for the abstract head-type helper. -/
def wGht : Nat → Nat → String := fun _ _ => "mha"

/-- The sequence-mixer block types of the two-layer witness model. -/
def wTypes : List String := ["attention", "mamba"]

/-- The state dict produced by exporting `wWeights` with `wTypes`. -/
def wSd : List (String × Tensor Int) :=
  [("model.embed_tokens.weight", .scalar 0),
   ("model.norm.weight", .scalar 1),
   ("model.layers.0.input_layernorm.weight", .scalar 2),
   ("model.layers.0.post_attention_layernorm.weight", .scalar 3),
   ("model.layers.0.block_sparse_moe.router.layer.weight", .scalar 4),
   ("model.layers.0.block_sparse_moe.input_linear.weight", .dim [.dim [.scalar 6, .scalar 5]]),
   ("model.layers.0.block_sparse_moe.output_linear.weight", .scalar 7),
   ("model.layers.0.self_attn.q_proj.weight", .scalar 8),
   ("model.layers.0.self_attn.k_proj.weight", .scalar 8),
   ("model.layers.0.self_attn.v_proj.weight", .scalar 8),
   ("model.layers.0.self_attn.o_proj.weight", .scalar 9),
   ("model.layers.1.input_layernorm.weight", .scalar 10),
   ("model.layers.1.post_attention_layernorm.weight", .scalar 11),
   ("model.layers.1.block_sparse_moe.router.layer.weight", .scalar 12),
   ("model.layers.1.block_sparse_moe.input_linear.weight", .dim [.dim [.scalar 14, .scalar 13]]),
   ("model.layers.1.block_sparse_moe.output_linear.weight", .scalar 15),
   ("model.layers.1.mamba.conv1d.weight", .scalar 16),
   ("model.layers.1.mamba.conv1d.bias", .scalar 17),
   ("model.layers.1.mamba.in_proj.weight", .scalar 18),
   ("model.layers.1.mamba.dt_bias", .scalar 19),
   ("model.layers.1.mamba.A_log", .scalar 20),
   ("model.layers.1.mamba.D", .scalar 21),
   ("model.layers.1.mamba.out_proj.weight", .scalar 22),
   ("model.layers.1.mamba.norm.weight", .scalar 23),
   ("model.layers.1.shared_mlp.input_linear.weight", .dim [.scalar 25, .scalar 24]),
   ("model.layers.1.shared_mlp.output_linear.weight", .scalar 26)]

namespace OptMapLemmas

theorem forall₂_mem_left {α β : Type} {R : α → β → Prop} :
    ∀ {l : List α} {ys : List β}, List.Forall₂ R l ys →
      ∀ {a : α}, a ∈ l → ∃ b ∈ ys, R a b := by
  intro l ys h
  induction h with
  | nil => intro a ha; cases ha
  | @cons x y l' ys' hab _ ih =>
      intro a ha
      rcases List.mem_cons.mp ha with h' | h'
      · exact ⟨y, List.mem_cons_self _ _, h' ▸ hab⟩
      · obtain ⟨b, hb, hrb⟩ := ih h'
        exact ⟨b, List.mem_cons_of_mem _ hb, hrb⟩

theorem forall₂_mem_right {α β : Type} {R : α → β → Prop} :
    ∀ {l : List α} {ys : List β}, List.Forall₂ R l ys →
      ∀ {b : β}, b ∈ ys → ∃ a ∈ l, R a b := by
  intro l ys h
  induction h with
  | nil => intro b hb; cases hb
  | @cons x y l' ys' hab _ ih =>
      intro b hb
      rcases List.mem_cons.mp hb with h' | h'
      · exact ⟨x, List.mem_cons_self _ _, h' ▸ hab⟩
      · obtain ⟨a, ha, hra⟩ := ih h'
        exact ⟨a, List.mem_cons_of_mem _ ha, hra⟩

theorem optMap_eq_some {α β : Type} {f : α → Option β} :
    ∀ {l : List α} {ys : List β},
      optMap f l = some ys ↔ List.Forall₂ (fun a b => f a = some b) l ys := by
  intro l
  induction l with
  | nil =>
      intro ys
      constructor
      · intro h
        injection h with h
        subst h
        exact List.Forall₂.nil
      · intro h
        cases h
        rfl
  | cons a l ih =>
      intro ys
      constructor
      · intro h
        simp only [optMap, Option.bind_eq_bind, Option.bind_eq_some, Option.pure_def,
          Option.some.injEq] at h
        obtain ⟨b, hb, bs, hbs, hys⟩ := h
        subst hys
        exact List.Forall₂.cons hb (ih.mp hbs)
      · intro h
        cases h with
        | cons hb hbs =>
            simp only [optMap, Option.bind_eq_bind, Option.bind_eq_some, Option.pure_def,
              Option.some.injEq]
            exact ⟨_, hb, _, ih.mpr hbs, rfl⟩

theorem optMap_isSome {α β : Type} {f : α → Option β} {l : List α}
    (h : ∀ a ∈ l, ∃ b, f a = some b) : ∃ ys, optMap f l = some ys := by
  induction l with
  | nil => exact ⟨[], rfl⟩
  | cons a l ih =>
      obtain ⟨b, hb⟩ := h a (List.mem_cons_self a l)
      obtain ⟨ys, hys⟩ := ih fun x hx => h x (List.mem_cons_of_mem a hx)
      exact ⟨b :: ys, by simp [optMap, hb, hys]⟩

theorem optMap_eq_none {α β : Type} {f : α → Option β} {l : List α} :
    optMap f l = none ↔ ∃ a ∈ l, f a = none := by
  constructor
  · intro h
    by_contra hc
    push_neg at hc
    have hsome : ∀ a ∈ l, ∃ b, f a = some b := by
      intro a ha
      cases hfa : f a with
      | none => exact absurd hfa (hc a ha)
      | some b => exact ⟨b, rfl⟩
    obtain ⟨ys, hys⟩ := optMap_isSome hsome
    rw [h] at hys
    exact Option.noConfusion hys
  · rintro ⟨a, ha, hfa⟩
    cases hop : optMap f l with
    | none => rfl
    | some ys =>
        obtain ⟨b, _, hb⟩ := forall₂_mem_left (optMap_eq_some.mp hop) ha
        rw [hfa] at hb
        exact Option.noConfusion hb

theorem optMap_map {α β γ : Type} (f : β → Option γ) (g : α → β) (l : List α) :
    optMap f (l.map g) = optMap (fun a => f (g a)) l := by
  induction l with
  | nil => rfl
  | cons a l ih => simp [optMap, ih]

theorem optMap_rel_congr {α β γ : Type} {R : α → β → Prop}
    {f : β → Option γ} {g : α → Option γ} :
    ∀ {l : List α} {ps : List β}, List.Forall₂ R l ps →
      (∀ a b, R a b → f b = g a) → optMap f ps = optMap g l := by
  intro l ps h hfg
  induction h with
  | nil => rfl
  | cons hab _ ih => simp [optMap, hfg _ _ hab, ih]

end OptMapLemmas

open OptMapLemmas

theorem splitAndReorderForGlu_eq_gluByDim {α : Type} :
    ∀ (d : Nat) (t : Tensor α), splitAndReorderForGlu t d = gluByDim d t := by
  intro d
  induction d with
  | zero =>
      intro t
      cases t with
      | scalar a => rfl
      | dim l =>
          simp only [splitAndReorderForGlu, chunk2, gluByDim]
          split
          · rfl
          · simp [cat2]
  | succ d ih =>
      intro t
      cases t with
      | scalar a => rfl
      | dim l =>
          simp only [splitAndReorderForGlu, chunk2, gluByDim]
          cases hop : optMap (chunk2 d) l with
          | none =>
              have : optMap (gluByDim d) l = none := by
                obtain ⟨a, ha, hfa⟩ := optMap_eq_none.mp hop
                refine optMap_eq_none.mpr ⟨a, ha, ?_⟩
                rw [← ih a]
                simp [splitAndReorderForGlu, hfa]
              simp [this]
          | some ps =>
              have hrel := optMap_eq_some.mp hop
              simp only [Option.map_some', Option.some_bind]
              show cat2 (d + 1) (.dim (ps.map Prod.snd)) (.dim (ps.map Prod.fst)) = _
              simp only [cat2, List.length_map]
              rw [if_pos trivial, List.zip_map' Prod.snd Prod.fst ps, optMap_map]
              have hco : optMap (fun p : Tensor α × Tensor α => cat2 d p.2 p.1) ps
                  = optMap (gluByDim d) l := by
                refine optMap_rel_congr hrel ?_
                intro a p hp
                rw [← ih a]
                simp [splitAndReorderForGlu, hp]
              rw [hco]

theorem gluByDim_shape {α : Type} :
    ∀ (d : Nat) (t t' : Tensor α) (s : List Nat),
      gluByDim d t = some t' → HasShape t s → HasShape t' s := by
  intro d
  induction d with
  | zero =>
      intro t t' s h hs
      cases hs with
      | scalar a => simp [gluByDim] at h
      | @dim l s' hmem =>
          simp only [gluByDim] at h
          split at h
          · exact Option.noConfusion h
          · simp only [Option.some.injEq] at h
            subst h
            have hmem' : ∀ t ∈ l.drop ((l.length + 1) / 2) ++ l.take ((l.length + 1) / 2),
                HasShape t s' := by
              intro t ht
              rcases List.mem_append.mp ht with h' | h'
              · exact hmem t (List.drop_subset _ l h')
              · exact hmem t (List.take_subset _ l h')
            have hres := HasShape.dim hmem'
            have hlen : (l.drop ((l.length + 1) / 2) ++ l.take ((l.length + 1) / 2)).length
                = l.length := by
              simp
              omega
            rwa [hlen] at hres
  | succ d ih =>
      intro t t' s h hs
      cases hs with
      | scalar a => simp [gluByDim] at h
      | @dim l s' hmem =>
          simp only [gluByDim, Option.map_eq_some'] at h
          obtain ⟨zs, hzs, ht'⟩ := h
          subst ht'
          have hrel := optMap_eq_some.mp hzs
          have hlen : zs.length = l.length := (List.Forall₂.length_eq hrel).symm
          have hres : ∀ z ∈ zs, HasShape z s' := by
            intro z hz
            obtain ⟨a, ha, haz⟩ := forall₂_mem_right hrel hz
            exact ih a z s' haz (hmem a ha)
          have := HasShape.dim hres
          rwa [hlen] at this

theorem gluByDim_involution {α : Type} :
    ∀ (d : Nat) (t : Tensor α), evenAlong d t = true →
      ∃ t', gluByDim d t = some t' ∧ gluByDim d t' = some t := by
  intro d
  induction d with
  | zero =>
      intro t h
      cases t with
      | scalar a => simp [evenAlong] at h
      | dim l =>
          simp only [evenAlong, decide_eq_true_eq] at h
          have heven : l.length % 2 = 0 := h
          have hne : ¬l.length = 1 := by omega
          have hcs : (l.length + 1) / 2 = l.length / 2 := by omega
          have hdl : (l.drop (l.length / 2)).length = l.length / 2 := by
            simp
            omega
          refine ⟨.dim (l.drop (l.length / 2) ++ l.take (l.length / 2)), ?_, ?_⟩
          · simp only [gluByDim, if_neg hne, hcs]
          · have hlen : (l.drop (l.length / 2) ++ l.take (l.length / 2)).length = l.length := by
              simp
              omega
            simp only [gluByDim, hlen, if_neg hne, hcs]
            have htake : (l.drop (l.length / 2) ++ l.take (l.length / 2)).take (l.length / 2)
                = l.drop (l.length / 2) := List.take_left' hdl
            have hdrop : (l.drop (l.length / 2) ++ l.take (l.length / 2)).drop (l.length / 2)
                = l.take (l.length / 2) := List.drop_left' hdl
            rw [htake, hdrop, List.take_append_drop]
  | succ d ih =>
      intro t h
      cases t with
      | scalar a => simp [evenAlong] at h
      | dim l =>
          simp only [evenAlong, List.all_eq_true] at h
          have main : ∀ (l' : List (Tensor α)), (∀ a ∈ l', evenAlong d a = true) →
              ∃ zs, optMap (gluByDim d) l' = some zs ∧ optMap (gluByDim d) zs = some l' := by
            intro l'
            induction l' with
            | nil => exact fun _ => ⟨[], rfl, rfl⟩
            | cons a l'' ihl =>
                intro hall
                obtain ⟨zs, h1, h2⟩ := ihl fun x hx => hall x (List.mem_cons_of_mem a hx)
                obtain ⟨b, hb, hb'⟩ := ih a (hall a (List.mem_cons_self a l''))
                exact ⟨b :: zs, by simp [optMap, hb, h1], by simp [optMap, hb', h2]⟩
          obtain ⟨zs, h1, h2⟩ := main l h
          exact ⟨.dim zs, by simp [gluByDim, h1], by simp [gluByDim, h2]⟩

theorem splitAndReorderForGlu_shape {α : Type} (d : Nat) (t t' : Tensor α) (s : List Nat)
    (h : splitAndReorderForGlu t d = some t') (hs : HasShape t s) : HasShape t' s :=
  gluByDim_shape d t t' s (splitAndReorderForGlu_eq_gluByDim d t ▸ h) hs

theorem splitAndReorderForGlu_involution {α : Type} (d : Nat) (t : Tensor α)
    (h : evenAlong d t = true) :
    ∃ t', splitAndReorderForGlu t d = some t' ∧ splitAndReorderForGlu t' d = some t := by
  obtain ⟨t', h1, h2⟩ := gluByDim_involution d t h
  exact ⟨t', by rw [splitAndReorderForGlu_eq_gluByDim]; exact h1,
    by rw [splitAndReorderForGlu_eq_gluByDim]; exact h2⟩

theorem foldl_append_singleton {α β : Type} (f : α → β) :
    ∀ (l : List α) (acc : List β),
      l.foldl (fun acc b => acc ++ [f b]) acc = acc ++ l.map f := by
  intro l
  induction l with
  | nil => simp
  | cons a l ih =>
      intro acc
      simp only [List.foldl_cons, List.map_cons, ih, List.append_assoc, List.singleton_append]

theorem getSequenceMixerBlockTypes_eq_map (c : GPTDolomiteConfig) :
    getSequenceMixerBlockTypes c = c.sequence_mixer_blocks.map
      (fun b => if b.sequence_mixer_type = "mamba2" then "mamba"
                else if b.sequence_mixer_type = "softmax_attention" then "attention"
                else b.sequence_mixer_type) := by
  unfold getSequenceMixerBlockTypes
  rw [foldl_append_singleton]
  rfl

/-- C9: `_get_sequence_mixer_block_types` returns one entry per sequence
mixer block, in order, renaming `mamba2` to `mamba` and `softmax_attention`
to `attention` and leaving every other type string unchanged. -/
theorem getSequenceMixerBlockTypes_spec (c : GPTDolomiteConfig) :
    (getSequenceMixerBlockTypes c).length = c.sequence_mixer_blocks.length ∧
    ∀ i : Nat, (getSequenceMixerBlockTypes c).get? i =
      (c.sequence_mixer_blocks.get? i).map
        (fun b => if b.sequence_mixer_type = "mamba2" then "mamba"
                  else if b.sequence_mixer_type = "softmax_attention" then "attention"
                  else b.sequence_mixer_type) := by
  rw [getSequenceMixerBlockTypes_eq_map]
  exact ⟨List.length_map _ _, fun i => (List.get?_map _ _ _)⟩

/-- C6: the conversion is deterministic; both mapping functions are pure,
so two runs on the same input produce identical outputs. -/
theorem export_deterministic :
    ∀ (c : GPTDolomiteConfig) (swm : String → Option (Tensor Int)) (numLayers : Nat)
      (types : List String) (numHeads numKeyValueHeads headDim : Nat)
      (split : Tensor Int → Nat → Nat → Nat → String →
        Option (Tensor Int × Tensor Int × Tensor Int))
      (getAttentionHeadType : Nat → Nat → String),
      exportConfigToHuggingface c = exportConfigToHuggingface c ∧
      exportStateDictToHuggingface swm numLayers types numHeads numKeyValueHeads headDim
          split getAttentionHeadType =
        exportStateDictToHuggingface swm numLayers types numHeads numKeyValueHeads headDim
          split getAttentionHeadType :=
  fun _ _ _ _ _ _ _ _ _ => ⟨rfl, rfl⟩

/-- C8: when the source normalization function is not `rmsnorm`, the config
export fails with the assertion error before any target configuration is
constructed, so no (partial) target configuration is produced. -/
theorem exportConfig_assert_rmsnorm (c : GPTDolomiteConfig)
    (h : c.normalization_function ≠ "rmsnorm") :
    exportConfigToHuggingface c = .error "assert config.normalization_function == rmsnorm" := by
  unfold exportConfigToHuggingface
  rw [if_neg h]
  rfl

/-- Witness for C8 at a concrete configuration. -/
theorem exportConfig_assert_rmsnorm_witness :
    exportConfigToHuggingface wConfigBad
      = .error "assert config.normalization_function == rmsnorm" :=
  exportConfig_assert_rmsnorm wConfigBad (by decide)

/-- C10 (corrected): `_split_and_reorder_for_glu` preserves the shape, and
applying it twice restores the original tensor for every input whose size
along the chosen dimension is even (including a 0-size dimension, which
torch chunks into two empty pieces); but for an odd-sized input double
application need not differ from the original, so the claimed "exactly
when even" equivalence fails (see the counterexample), and the odd
direction holds only for some inputs, such as the distinct-entry tensor
`[1, 2, 3]`. -/
theorem splitAndReorderForGlu_shape_involution :
    (∀ (t t' : Tensor Int) (d : Nat) (s : List Nat),
        splitAndReorderForGlu t d = some t' → HasShape t s → HasShape t' s) ∧
    (∀ (t : Tensor Int) (d : Nat), evenAlong d t = true →
        ∃ t', splitAndReorderForGlu t d = some t' ∧ splitAndReorderForGlu t' d = some t) ∧
    ((splitAndReorderForGlu
          (Tensor.dim [Tensor.scalar (1 : Int), Tensor.scalar 2, Tensor.scalar 3]) 0).bind
        (fun u => splitAndReorderForGlu u 0) ≠
      some (Tensor.dim [Tensor.scalar (1 : Int), Tensor.scalar 2, Tensor.scalar 3])) := by
  refine ⟨fun t t' d s h hs => splitAndReorderForGlu_shape d t t' s h hs,
    fun t d h => splitAndReorderForGlu_involution d t h, fun h => ?_⟩
  have h2 : Tensor.dim [Tensor.scalar (2 : Int), Tensor.scalar 3, Tensor.scalar 1]
      = Tensor.dim [Tensor.scalar (1 : Int), Tensor.scalar 2, Tensor.scalar 3] :=
    Option.some.inj ((rfl :
      (splitAndReorderForGlu
          (Tensor.dim [Tensor.scalar (1 : Int), Tensor.scalar 2, Tensor.scalar 3]) 0).bind
        (fun u => splitAndReorderForGlu u 0)
      = some (Tensor.dim [Tensor.scalar (2 : Int), Tensor.scalar 3, Tensor.scalar 1])).symm.trans h)
  injection h2 with hl
  injection hl with ha _
  injection ha with hv
  exact absurd hv (by norm_num)

/-- Counterexample to C10 as stated: the constant tensor `[1, 1, 1]` is
odd-sized along dimension 0, yet applying the reorder twice returns the
original tensor. -/
theorem splitAndReorderForGlu_odd_restores :
    evenAlong 0 (Tensor.dim [Tensor.scalar (1 : Int), Tensor.scalar 1, Tensor.scalar 1])
        = false ∧
    (splitAndReorderForGlu
        (Tensor.dim [Tensor.scalar (1 : Int), Tensor.scalar 1, Tensor.scalar 1]) 0).bind
      (fun u => splitAndReorderForGlu u 0)
      = some (Tensor.dim [Tensor.scalar (1 : Int), Tensor.scalar 1, Tensor.scalar 1]) :=
  ⟨rfl, rfl⟩

/-- Witness for C10 at concrete tensors: shape preservation on a `[2]`
tensor and even-size double-application restoring `[1, 2]`. -/
theorem splitAndReorderForGlu_shape_involution_witness :
    HasShape (Tensor.dim [Tensor.scalar (6 : Int), Tensor.scalar 5]) [2] ∧
    (∃ t', splitAndReorderForGlu (Tensor.dim [Tensor.scalar (1 : Int), Tensor.scalar 2]) 0
        = some t' ∧
      splitAndReorderForGlu t' 0
        = some (Tensor.dim [Tensor.scalar (1 : Int), Tensor.scalar 2])) :=
  ⟨splitAndReorderForGlu_shape_involution.1
      (Tensor.dim [Tensor.scalar 5, Tensor.scalar 6])
      (Tensor.dim [Tensor.scalar 6, Tensor.scalar 5]) 0 [2] rfl
      (HasShape.dim (by intro t ht; fin_cases ht <;> exact HasShape.scalar _)),
    splitAndReorderForGlu_shape_involution.2.1
      (Tensor.dim [Tensor.scalar 1, Tensor.scalar 2]) 0 rfl⟩

/-- Counterexample to C5 as stated: two source configurations that differ
in `m_emb` (`None` versus `1`) export to identical target configurations,
so the configuration-field mapping is not injective. -/
theorem exportConfig_value_collision :
    wConfig.m_emb ≠ wConfigMemb1.m_emb ∧
    exportConfigToHuggingface wConfig = exportConfigToHuggingface wConfigMemb1 :=
  ⟨by decide, rfl⟩

theorem exceptBind_ok {ε α β : Type} {x : Except ε α} {f : α → Except ε β} {b : β}
    (h : x >>= f = .ok b) : ∃ a, x = .ok a ∧ f a = .ok b := by
  cases x with
  | error e => simp [Bind.bind, Except.bind] at h
  | ok a => exact ⟨a, rfl, by simpa [Bind.bind, Except.bind] using h⟩

/-- C7: the config export copies `vocab_size`, `max_position_embeddings`
and `hidden_size` unchanged, maps `num_layers` to `num_hidden_layers` and
`layer_norm_epsilon` to `rms_norm_eps`, and substitutes defaults for absent
scalars: the common `shared_intermediate_size` defaults to 0 and the
multipliers `m_emb`, `m_residual`, `m_width` default to 1. -/
theorem exportConfig_scalar_fields (c : GPTDolomiteConfig) (g : GraniteMoeHybridConfig)
    (h : exportConfigToHuggingface c = .ok g) :
    g.vocab_size = c.vocab_size ∧
    g.max_position_embeddings = c.max_position_embeddings ∧
    g.hidden_size = c.hidden_size ∧
    g.num_hidden_layers = c.num_layers ∧
    g.rms_norm_eps = c.layer_norm_epsilon ∧
    (∃ siz, checkEqualForAllAndGetValue
        (c.mlp_blocks.map (fun b => b.shared_intermediate_size)) none = .ok siz ∧
      g.shared_intermediate_size = siz.getD 0) ∧
    g.embedding_multiplier = c.m_emb.getD 1 ∧
    g.residual_multiplier = c.m_residual.getD 1 ∧
    g.logits_scaling = c.m_width.getD 1 := by
  by_cases hnorm : c.normalization_function = "rmsnorm"
  case neg =>
    unfold exportConfigToHuggingface at h
    rw [if_neg hnorm] at h
    simp [Bind.bind, Except.bind, throw, throwThe, MonadExceptOf.throw] at h
  case pos =>
    unfold exportConfigToHuggingface at h
    rw [if_pos hnorm] at h
    obtain ⟨v0, h0, h⟩ := exceptBind_ok h
    obtain ⟨v1, h1, h⟩ := exceptBind_ok h
    obtain ⟨v2, h2, h⟩ := exceptBind_ok h
    obtain ⟨v3, h3, h⟩ := exceptBind_ok h
    obtain ⟨v4, h4, h⟩ := exceptBind_ok h
    obtain ⟨siz, hsiz, h⟩ := exceptBind_ok h
    obtain ⟨ck, hck, h⟩ := exceptBind_ok h
    have hg : _ = g := Except.ok.inj h
    subst hg
    refine ⟨rfl, rfl, rfl, rfl, rfl, ⟨siz, hsiz, ?_⟩, ?_, ?_, ?_⟩
    · cases siz <;> rfl
    · cases c.m_emb <;> rfl
    · cases c.m_residual <;> rfl
    · cases c.m_width <;> rfl

theorem layerBase_eq {α : Type} {swm : String → Option (Tensor α)} {i : Nat}
    {l : List (String × Tensor α)} (h : layerBase swm i = some l) :
    ∃ ln1 ln2 gate cfc moeIn cproj,
      swm (srcName i ".ln_1.weight") = some ln1 ∧
      swm (srcName i ".ln_2.weight") = some ln2 ∧
      swm (srcName i ".mlp_block.gate.weight") = some gate ∧
      swm (srcName i ".mlp_block.c_fc.weight") = some cfc ∧
      splitAndReorderForGlu cfc 1 = some moeIn ∧
      swm (srcName i ".mlp_block.c_proj.weight") = some cproj ∧
      l = [(tgtName i ".input_layernorm.weight", ln1),
           (tgtName i ".post_attention_layernorm.weight", ln2),
           (tgtName i ".block_sparse_moe.router.layer.weight", gate),
           (tgtName i ".block_sparse_moe.input_linear.weight", moeIn),
           (tgtName i ".block_sparse_moe.output_linear.weight", cproj)] := by
  simp only [layerBase, Option.bind_eq_bind, Option.bind_eq_some, Option.pure_def,
    Option.some.injEq] at h
  obtain ⟨ln1, h1, ln2, h2, gate, h3, cfc, h4, moeIn, h5, cproj, h6, hl⟩ := h
  exact ⟨ln1, ln2, gate, cfc, moeIn, cproj, h1, h2, h3, h4, h5, h6, hl.symm⟩

theorem layerMixer_eq {α : Type} {swm : String → Option (Tensor α)} {types : List String}
    {numHeads numKeyValueHeads headDim : Nat}
    {split : Tensor α → Nat → Nat → Nat → String → Option (Tensor α × Tensor α × Tensor α)}
    {aht : String} {i : Nat} {l : List (String × Tensor α)}
    (h : layerMixer swm types numHeads numKeyValueHeads headDim split aht i = some l) :
    ∃ bt, types.get? i = some bt ∧
      ((bt = "mamba" ∧ ∃ t1 t2 t3 t4 t5 t6 t7 t8,
          swm (srcName i ".sequence_mixer.conv1d.weight") = some t1 ∧
          swm (srcName i ".sequence_mixer.conv1d.bias") = some t2 ∧
          swm (srcName i ".sequence_mixer.in_proj.weight") = some t3 ∧
          swm (srcName i ".sequence_mixer.dt_bias") = some t4 ∧
          swm (srcName i ".sequence_mixer.A_log") = some t5 ∧
          swm (srcName i ".sequence_mixer.D") = some t6 ∧
          swm (srcName i ".sequence_mixer.out_proj.weight") = some t7 ∧
          swm (srcName i ".sequence_mixer.norm.weight") = some t8 ∧
          l = [(tgtName i ".mamba.conv1d.weight", t1),
               (tgtName i ".mamba.conv1d.bias", t2),
               (tgtName i ".mamba.in_proj.weight", t3),
               (tgtName i ".mamba.dt_bias", t4),
               (tgtName i ".mamba.A_log", t5),
               (tgtName i ".mamba.D", t6),
               (tgtName i ".mamba.out_proj.weight", t7),
               (tgtName i ".mamba.norm.weight", t8)]) ∨
       (bt = "attention" ∧ ∃ cattn qkv oproj,
          swm (srcName i ".sequence_mixer.c_attn.weight") = some cattn ∧
          split cattn numHeads numKeyValueHeads headDim aht = some qkv ∧
          swm (srcName i ".sequence_mixer.c_proj.weight") = some oproj ∧
          l = [(tgtName i ".self_attn.q_proj.weight", qkv.1),
               (tgtName i ".self_attn.k_proj.weight", qkv.2.1),
               (tgtName i ".self_attn.v_proj.weight", qkv.2.2),
               (tgtName i ".self_attn.o_proj.weight", oproj)]) ∨
       (bt ≠ "mamba" ∧ bt ≠ "attention" ∧ l = [])) := by
  simp only [layerMixer, Option.bind_eq_bind, Option.bind_eq_some] at h
  obtain ⟨bt, hbt, h⟩ := h
  refine ⟨bt, hbt, ?_⟩
  by_cases hm : bt = "mamba"
  case pos =>
    rw [if_pos hm] at h
    simp only [Option.bind_eq_bind, Option.bind_eq_some, Option.pure_def,
      Option.some.injEq] at h
    obtain ⟨t1, h1, t2, h2, t3, h3, t4, h4, t5, h5, t6, h6, t7, h7, t8, h8, hl⟩ := h
    exact Or.inl ⟨hm, t1, t2, t3, t4, t5, t6, t7, t8, h1, h2, h3, h4, h5, h6, h7, h8, hl.symm⟩
  case neg =>
    rw [if_neg hm] at h
    by_cases ha : bt = "attention"
    case pos =>
      rw [if_pos ha] at h
      simp only [Option.bind_eq_bind, Option.bind_eq_some, Option.pure_def,
        Option.some.injEq] at h
      obtain ⟨cattn, h1, qkv, h2, oproj, h3, hl⟩ := h
      exact Or.inr (Or.inl ⟨ha, cattn, qkv, oproj, h1, h2, h3, hl.symm⟩)
    case neg =>
      rw [if_neg ha] at h
      simp only [Option.pure_def, Option.some.injEq] at h
      exact Or.inr (Or.inr ⟨hm, ha, h.symm⟩)

theorem layerShared_eq {α : Type} {swm : String → Option (Tensor α)} {i : Nat}
    {l : List (String × Tensor α)} (h : layerShared swm i = some l) :
    (swm (srcName i ".mlp_block.c_fc_shared.weight") = none ∧ l = []) ∨
    (∃ t sIn sOut,
      swm (srcName i ".mlp_block.c_fc_shared.weight") = some t ∧
      splitAndReorderForGlu t 0 = some sIn ∧
      swm (srcName i ".mlp_block.c_proj_shared.weight") = some sOut ∧
      l = [(tgtName i ".shared_mlp.input_linear.weight", sIn),
           (tgtName i ".shared_mlp.output_linear.weight", sOut)]) := by
  unfold layerShared at h
  cases hs : swm (srcName i ".mlp_block.c_fc_shared.weight") with
  | none =>
      rw [hs] at h
      simp only [Option.some.injEq] at h
      exact Or.inl ⟨rfl, h.symm⟩
  | some t =>
      rw [hs] at h
      simp only [Option.bind_eq_bind, Option.bind_eq_some, Option.pure_def,
        Option.some.injEq] at h
      obtain ⟨sIn, h1, sOut, h2, hl⟩ := h
      exact Or.inr ⟨t, sIn, sOut, rfl, h1, h2, hl.symm⟩

theorem exportLayer_eq {α : Type} {swm : String → Option (Tensor α)} {types : List String}
    {numHeads numKeyValueHeads headDim : Nat}
    {split : Tensor α → Nat → Nat → Nat → String → Option (Tensor α × Tensor α × Tensor α)}
    {aht : String} {i : Nat} {l : List (String × Tensor α)}
    (h : exportLayer swm types numHeads numKeyValueHeads headDim split aht i = some l) :
    ∃ base mixer shared,
      layerBase swm i = some base ∧
      layerMixer swm types numHeads numKeyValueHeads headDim split aht i = some mixer ∧
      layerShared swm i = some shared ∧
      l = base ++ mixer ++ shared := by
  simp only [exportLayer, Option.bind_eq_bind, Option.bind_eq_some, Option.pure_def,
    Option.some.injEq] at h
  obtain ⟨base, h1, mixer, h2, shared, h3, hl⟩ := h
  exact ⟨base, mixer, shared, h1, h2, h3, hl.symm⟩

theorem exportLayers_mem {α : Type} {f : Nat → Option (List (String × Tensor α))} :
    ∀ {n : Nat} {ys : List (String × Tensor α)}, exportLayers f n = some ys →
      ∀ e ∈ ys, ∃ i, i < n ∧ ∃ li, f i = some li ∧ e ∈ li := by
  intro n
  induction n with
  | zero =>
      intro ys h e he
      injection h with h
      subst h
      cases he
  | succ n ih =>
      intro ys h e he
      simp only [exportLayers, Option.bind_eq_bind, Option.bind_eq_some, Option.pure_def,
        Option.some.injEq] at h
      obtain ⟨rest, hrest, cur, hcur, hys⟩ := h
      subst hys
      rcases List.mem_append.mp he with h' | h'
      · obtain ⟨i, hi, li, hfi, hei⟩ := ih hrest e h'
        exact ⟨i, Nat.lt_succ_of_lt hi, li, hfi, hei⟩
      · exact ⟨n, Nat.lt_succ_self n, cur, hcur, h'⟩

theorem exportLayers_layer {α : Type} {f : Nat → Option (List (String × Tensor α))} :
    ∀ {n : Nat} {ys : List (String × Tensor α)}, exportLayers f n = some ys →
      ∀ {i : Nat}, i < n → ∃ li, f i = some li ∧ ∀ e ∈ li, e ∈ ys := by
  intro n
  induction n with
  | zero => intro ys h i hi; omega
  | succ n ih =>
      intro ys h i hi
      simp only [exportLayers, Option.bind_eq_bind, Option.bind_eq_some, Option.pure_def,
        Option.some.injEq] at h
      obtain ⟨rest, hrest, cur, hcur, hys⟩ := h
      subst hys
      by_cases hin : i < n
      case pos =>
        obtain ⟨li, hfi, hsub⟩ := ih hrest hin
        exact ⟨li, hfi, fun e he => List.mem_append.mpr (Or.inl (hsub e he))⟩
      case neg =>
        have : i = n := by omega
        subst this
        exact ⟨cur, hcur, fun e he => List.mem_append.mpr (Or.inr he)⟩

theorem exportStateDict_eq {α : Type} {swm : String → Option (Tensor α)}
    {numLayers : Nat} {types : List String} {numHeads numKeyValueHeads headDim : Nat}
    {split : Tensor α → Nat → Nat → Nat → String → Option (Tensor α × Tensor α × Tensor α)}
    {ght : Nat → Nat → String} {sd : List (String × Tensor α)}
    (h : exportStateDictToHuggingface swm numLayers types numHeads numKeyValueHeads headDim
        split ght = some sd) :
    ∃ wte lnf layers,
      swm "transformer.wte.weight" = some wte ∧
      swm "transformer.ln_f.weight" = some lnf ∧
      exportLayers (exportLayer swm types numHeads numKeyValueHeads headDim split
          (ght numHeads numKeyValueHeads)) numLayers = some layers ∧
      ((swm "lm_head.weight" = none ∧
          sd = [("model.embed_tokens.weight", wte), ("model.norm.weight", lnf)] ++ layers) ∨
       (∃ lmh, swm "lm_head.weight" = some lmh ∧
          sd = [("model.embed_tokens.weight", wte), ("model.norm.weight", lnf),
                ("lm_head.weight", lmh)] ++ layers)) := by
  simp only [exportStateDictToHuggingface, Option.bind_eq_bind, Option.bind_eq_some,
    Option.pure_def, Option.some.injEq] at h
  obtain ⟨wte, h1, lnf, h2, layers, h3, hsd⟩ := h
  refine ⟨wte, lnf, layers, h1, h2, h3, ?_⟩
  cases hlm : swm "lm_head.weight" with
  | none =>
      rw [hlm] at hsd
      exact Or.inl ⟨rfl, hsd.symm⟩
  | some lmh =>
      rw [hlm] at hsd
      exact Or.inr ⟨lmh, rfl, hsd.symm⟩

/-- C1: every tensor in the state dict produced by the export arises from
the source checkpoint's tensors by one of exactly three transformations: a
direct rename leaving the value unchanged, the head-layout split of a fused
attention QKV tensor, or the GLU channel-order swap; no output tensor
arises in any other way. -/
theorem exportStateDict_three_transformations {α : Type}
    (swm : String → Option (Tensor α)) (numLayers : Nat) (types : List String)
    (numHeads numKeyValueHeads headDim : Nat)
    (split : Tensor α → Nat → Nat → Nat → String → Option (Tensor α × Tensor α × Tensor α))
    (ght : Nat → Nat → String) (sd : List (String × Tensor α))
    (h : exportStateDictToHuggingface swm numLayers types numHeads numKeyValueHeads headDim
        split ght = some sd) :
    ∀ k t, (k, t) ∈ sd →
      (∃ src, swm src = some t) ∨
      (∃ src fused qkv, swm src = some fused ∧
        split fused numHeads numKeyValueHeads headDim (ght numHeads numKeyValueHeads)
          = some qkv ∧
        (t = qkv.1 ∨ t = qkv.2.1 ∨ t = qkv.2.2)) ∨
      (∃ src w d, swm src = some w ∧ splitAndReorderForGlu w d = some t) := by
  intro k t hmem
  obtain ⟨wte, lnf, layers, hw, hl, hlay, hcase⟩ := exportStateDict_eq h
  have hlayers : (k, t) ∈ layers →
      (∃ src, swm src = some t) ∨
      (∃ src fused qkv, swm src = some fused ∧
        split fused numHeads numKeyValueHeads headDim (ght numHeads numKeyValueHeads)
          = some qkv ∧
        (t = qkv.1 ∨ t = qkv.2.1 ∨ t = qkv.2.2)) ∨
      (∃ src w d, swm src = some w ∧ splitAndReorderForGlu w d = some t) := by
    intro hml
    obtain ⟨i, hi, li, hfi, hei⟩ := exportLayers_mem hlay (k, t) hml
    obtain ⟨base, mixer, shared, hb, hm, hs, hli⟩ := exportLayer_eq hfi
    subst hli
    rcases List.mem_append.mp hei with hbm | hsh
    · rcases List.mem_append.mp hbm with hba | hmx
      · obtain ⟨ln1, ln2, gate, cfc, moeIn, cproj, h1, h2, h3, h4, h5, h6, hb'⟩ :=
          layerBase_eq hb
        subst hb'
        simp only [List.mem_cons, List.not_mem_nil, or_false, Prod.mk.injEq] at hba
        rcases hba with ⟨_, rfl⟩ | ⟨_, rfl⟩ | ⟨_, rfl⟩ | ⟨_, rfl⟩ | ⟨_, rfl⟩
        · exact Or.inl ⟨srcName i ".ln_1.weight", h1⟩
        · exact Or.inl ⟨srcName i ".ln_2.weight", h2⟩
        · exact Or.inl ⟨srcName i ".mlp_block.gate.weight", h3⟩
        · exact Or.inr (Or.inr ⟨srcName i ".mlp_block.c_fc.weight", cfc, 1, h4, h5⟩)
        · exact Or.inl ⟨srcName i ".mlp_block.c_proj.weight", h6⟩
      · obtain ⟨bt, hbt, hdisj⟩ := layerMixer_eq hm
        rcases hdisj with ⟨_, t1, t2, t3, t4, t5, t6, t7, t8,
            h1, h2, h3, h4, h5, h6, h7, h8, hm'⟩ | ⟨_, cattn, qkv, oproj, h1, h2, h3, hm'⟩ |
            ⟨_, _, hm'⟩
        · subst hm'
          simp only [List.mem_cons, List.not_mem_nil, or_false, Prod.mk.injEq] at hmx
          rcases hmx with ⟨_, rfl⟩ | ⟨_, rfl⟩ | ⟨_, rfl⟩ | ⟨_, rfl⟩ | ⟨_, rfl⟩ | ⟨_, rfl⟩ |
            ⟨_, rfl⟩ | ⟨_, rfl⟩
          · exact Or.inl ⟨srcName i ".sequence_mixer.conv1d.weight", h1⟩
          · exact Or.inl ⟨srcName i ".sequence_mixer.conv1d.bias", h2⟩
          · exact Or.inl ⟨srcName i ".sequence_mixer.in_proj.weight", h3⟩
          · exact Or.inl ⟨srcName i ".sequence_mixer.dt_bias", h4⟩
          · exact Or.inl ⟨srcName i ".sequence_mixer.A_log", h5⟩
          · exact Or.inl ⟨srcName i ".sequence_mixer.D", h6⟩
          · exact Or.inl ⟨srcName i ".sequence_mixer.out_proj.weight", h7⟩
          · exact Or.inl ⟨srcName i ".sequence_mixer.norm.weight", h8⟩
        · subst hm'
          simp only [List.mem_cons, List.not_mem_nil, or_false, Prod.mk.injEq] at hmx
          rcases hmx with ⟨_, rfl⟩ | ⟨_, rfl⟩ | ⟨_, rfl⟩ | ⟨_, rfl⟩
          · exact Or.inr (Or.inl ⟨srcName i ".sequence_mixer.c_attn.weight", cattn, qkv,
              h1, h2, Or.inl rfl⟩)
          · exact Or.inr (Or.inl ⟨srcName i ".sequence_mixer.c_attn.weight", cattn, qkv,
              h1, h2, Or.inr (Or.inl rfl)⟩)
          · exact Or.inr (Or.inl ⟨srcName i ".sequence_mixer.c_attn.weight", cattn, qkv,
              h1, h2, Or.inr (Or.inr rfl)⟩)
          · exact Or.inl ⟨srcName i ".sequence_mixer.c_proj.weight", h3⟩
        · subst hm'
          cases hmx
    · rcases layerShared_eq hs with ⟨_, hs'⟩ | ⟨tt, sIn, sOut, h1, h2, h3, hs'⟩
      · subst hs'
        cases hsh
      · subst hs'
        simp only [List.mem_cons, List.not_mem_nil, or_false, Prod.mk.injEq] at hsh
        rcases hsh with ⟨_, rfl⟩ | ⟨_, rfl⟩
        · exact Or.inr (Or.inr ⟨srcName i ".mlp_block.c_fc_shared.weight", tt, 0, h1, h2⟩)
        · exact Or.inl ⟨srcName i ".mlp_block.c_proj_shared.weight", h3⟩
  rcases hcase with ⟨hlm, rfl⟩ | ⟨lmh, hlm, rfl⟩
  · rcases List.mem_append.mp hmem with hhd | hml
    · simp only [List.mem_cons, List.not_mem_nil, or_false, Prod.mk.injEq] at hhd
      rcases hhd with ⟨_, rfl⟩ | ⟨_, rfl⟩
      · exact Or.inl ⟨"transformer.wte.weight", hw⟩
      · exact Or.inl ⟨"transformer.ln_f.weight", hl⟩
    · exact hlayers hml
  · rcases List.mem_append.mp hmem with hhd | hml
    · simp only [List.mem_cons, List.not_mem_nil, or_false, Prod.mk.injEq] at hhd
      rcases hhd with ⟨_, rfl⟩ | ⟨_, rfl⟩ | ⟨_, rfl⟩
      · exact Or.inl ⟨"transformer.wte.weight", hw⟩
      · exact Or.inl ⟨"transformer.ln_f.weight", hl⟩
      · exact Or.inl ⟨"lm_head.weight", hlm⟩
    · exact hlayers hml

/-- C2: for every layer whose sequence-mixer block type is `attention`, the
fused `c_attn` tensor is split by the head layout into the three
`q_proj`/`k_proj`/`v_proj` targets, and `c_proj` is mapped unchanged to
`o_proj`. -/
theorem exportStateDict_attention_split {α : Type}
    (swm : String → Option (Tensor α)) (numLayers : Nat) (types : List String)
    (numHeads numKeyValueHeads headDim : Nat)
    (split : Tensor α → Nat → Nat → Nat → String → Option (Tensor α × Tensor α × Tensor α))
    (ght : Nat → Nat → String) (sd : List (String × Tensor α))
    (h : exportStateDictToHuggingface swm numLayers types numHeads numKeyValueHeads headDim
        split ght = some sd)
    (i : Nat) (hi : i < numLayers) (hbt : types.get? i = some "attention") :
    ∃ fused qkv oproj,
      swm (srcName i ".sequence_mixer.c_attn.weight") = some fused ∧
      split fused numHeads numKeyValueHeads headDim (ght numHeads numKeyValueHeads)
        = some qkv ∧
      (tgtName i ".self_attn.q_proj.weight", qkv.1) ∈ sd ∧
      (tgtName i ".self_attn.k_proj.weight", qkv.2.1) ∈ sd ∧
      (tgtName i ".self_attn.v_proj.weight", qkv.2.2) ∈ sd ∧
      swm (srcName i ".sequence_mixer.c_proj.weight") = some oproj ∧
      (tgtName i ".self_attn.o_proj.weight", oproj) ∈ sd := by
  obtain ⟨wte, lnf, layers, hw, hl, hlay, hcase⟩ := exportStateDict_eq h
  obtain ⟨li, hfi, hsub⟩ := exportLayers_layer hlay hi
  obtain ⟨base, mixer, shared, hb, hm, hs, hli⟩ := exportLayer_eq hfi
  subst hli
  obtain ⟨bt, hbt', hdisj⟩ := layerMixer_eq hm
  rw [hbt] at hbt'
  have hbtv : bt = "attention" := (Option.some.inj hbt').symm
  subst hbtv
  rcases hdisj with ⟨hmm, _⟩ | ⟨_, cattn, qkv, oproj, h1, h2, h3, hm'⟩ | ⟨_, hna, _⟩
  · exact absurd hmm (by decide)
  · subst hm'
    have hsd : ∀ e, e ∈ [(tgtName i ".self_attn.q_proj.weight", qkv.1),
        (tgtName i ".self_attn.k_proj.weight", qkv.2.1),
        (tgtName i ".self_attn.v_proj.weight", qkv.2.2),
        (tgtName i ".self_attn.o_proj.weight", oproj)] → e ∈ sd := by
      intro e he
      have hlayers : e ∈ layers :=
        hsub e (List.mem_append.mpr (Or.inl (List.mem_append.mpr (Or.inr he))))
      rcases hcase with ⟨_, rfl⟩ | ⟨lmh, _, rfl⟩
      · exact List.mem_append.mpr (Or.inr hlayers)
      · exact List.mem_append.mpr (Or.inr hlayers)
    refine ⟨cattn, qkv, oproj, h1, h2, ?_, ?_, ?_, h3, ?_⟩
    · exact hsd _ (by simp)
    · exact hsd _ (by simp)
    · exact hsd _ (by simp)
    · exact hsd _ (by simp)
  · exact absurd rfl hna

/-- C3: for every layer, the MoE input projection target is the source
`c_fc` tensor with its two halves along dimension 1 swapped, and when the
shared `c_fc_shared` tensor exists, the shared-MLP input projection target
is that tensor with its two halves along dimension 0 swapped. -/
theorem exportStateDict_glu_reorder {α : Type}
    (swm : String → Option (Tensor α)) (numLayers : Nat) (types : List String)
    (numHeads numKeyValueHeads headDim : Nat)
    (split : Tensor α → Nat → Nat → Nat → String → Option (Tensor α × Tensor α × Tensor α))
    (ght : Nat → Nat → String) (sd : List (String × Tensor α))
    (h : exportStateDictToHuggingface swm numLayers types numHeads numKeyValueHeads headDim
        split ght = some sd)
    (i : Nat) (hi : i < numLayers) :
    (∃ cfc moeIn, swm (srcName i ".mlp_block.c_fc.weight") = some cfc ∧
       splitAndReorderForGlu cfc 1 = some moeIn ∧
       (tgtName i ".block_sparse_moe.input_linear.weight", moeIn) ∈ sd) ∧
    (∀ t, swm (srcName i ".mlp_block.c_fc_shared.weight") = some t →
       ∃ sIn, splitAndReorderForGlu t 0 = some sIn ∧
         (tgtName i ".shared_mlp.input_linear.weight", sIn) ∈ sd) := by
  obtain ⟨wte, lnf, layers, hw, hl, hlay, hcase⟩ := exportStateDict_eq h
  obtain ⟨li, hfi, hsub⟩ := exportLayers_layer hlay hi
  obtain ⟨base, mixer, shared, hb, hm, hs, hli⟩ := exportLayer_eq hfi
  subst hli
  have hsd : ∀ e, e ∈ base ++ mixer ++ shared → e ∈ sd := by
    intro e he
    have hlayers : e ∈ layers := hsub e he
    rcases hcase with ⟨_, rfl⟩ | ⟨lmh, _, rfl⟩
    · exact List.mem_append.mpr (Or.inr hlayers)
    · exact List.mem_append.mpr (Or.inr hlayers)
  constructor
  · obtain ⟨ln1, ln2, gate, cfc, moeIn, cproj, h1, h2, h3, h4, h5, h6, hb'⟩ := layerBase_eq hb
    refine ⟨cfc, moeIn, h4, h5, hsd _ ?_⟩
    refine List.mem_append.mpr (Or.inl (List.mem_append.mpr (Or.inl ?_)))
    rw [hb']
    simp
  · intro t ht
    rcases layerShared_eq hs with ⟨hnone, _⟩ | ⟨t', sIn, sOut, h1, h2, h3, hs'⟩
    · rw [ht] at hnone
      exact Option.noConfusion hnone
    · rw [ht] at h1
      have : t' = t := (Option.some.inj h1).symm
      subst this
      refine ⟨sIn, h2, hsd _ ?_⟩
      refine List.mem_append.mpr (Or.inr ?_)
      rw [hs']
      simp

/-- C4: the exported state dict contains a target name for each source
tensor: for every layer, the two layer norms, the MoE router, input and
output projections; additionally the eight mamba tensors when the layer's
block type is `mamba` and the four self-attention tensors when it is
`attention`; the embedding and final norm are always present. -/
theorem exportStateDict_schema_coverage {α : Type}
    (swm : String → Option (Tensor α)) (numLayers : Nat) (types : List String)
    (numHeads numKeyValueHeads headDim : Nat)
    (split : Tensor α → Nat → Nat → Nat → String → Option (Tensor α × Tensor α × Tensor α))
    (ght : Nat → Nat → String) (sd : List (String × Tensor α))
    (h : exportStateDictToHuggingface swm numLayers types numHeads numKeyValueHeads headDim
        split ght = some sd) :
    "model.embed_tokens.weight" ∈ sd.map Prod.fst ∧
    "model.norm.weight" ∈ sd.map Prod.fst ∧
    ∀ i, i < numLayers →
      tgtName i ".input_layernorm.weight" ∈ sd.map Prod.fst ∧
      tgtName i ".post_attention_layernorm.weight" ∈ sd.map Prod.fst ∧
      tgtName i ".block_sparse_moe.router.layer.weight" ∈ sd.map Prod.fst ∧
      tgtName i ".block_sparse_moe.input_linear.weight" ∈ sd.map Prod.fst ∧
      tgtName i ".block_sparse_moe.output_linear.weight" ∈ sd.map Prod.fst ∧
      (types.get? i = some "mamba" →
        tgtName i ".mamba.conv1d.weight" ∈ sd.map Prod.fst ∧
        tgtName i ".mamba.conv1d.bias" ∈ sd.map Prod.fst ∧
        tgtName i ".mamba.in_proj.weight" ∈ sd.map Prod.fst ∧
        tgtName i ".mamba.dt_bias" ∈ sd.map Prod.fst ∧
        tgtName i ".mamba.A_log" ∈ sd.map Prod.fst ∧
        tgtName i ".mamba.D" ∈ sd.map Prod.fst ∧
        tgtName i ".mamba.out_proj.weight" ∈ sd.map Prod.fst ∧
        tgtName i ".mamba.norm.weight" ∈ sd.map Prod.fst) ∧
      (types.get? i = some "attention" →
        tgtName i ".self_attn.q_proj.weight" ∈ sd.map Prod.fst ∧
        tgtName i ".self_attn.k_proj.weight" ∈ sd.map Prod.fst ∧
        tgtName i ".self_attn.v_proj.weight" ∈ sd.map Prod.fst ∧
        tgtName i ".self_attn.o_proj.weight" ∈ sd.map Prod.fst) := by
  obtain ⟨wte, lnf, layers, hw, hl, hlay, hcase⟩ := exportStateDict_eq h
  have hhd : ("model.embed_tokens.weight", wte) ∈ sd ∧ ("model.norm.weight", lnf) ∈ sd := by
    rcases hcase with ⟨_, rfl⟩ | ⟨lmh, _, rfl⟩ <;>
      exact ⟨List.mem_append.mpr (Or.inl (by simp)), List.mem_append.mpr (Or.inl (by simp))⟩
  refine ⟨List.mem_map_of_mem Prod.fst hhd.1, List.mem_map_of_mem Prod.fst hhd.2, ?_⟩
  intro i hi
  obtain ⟨li, hfi, hsub⟩ := exportLayers_layer hlay hi
  obtain ⟨base, mixer, shared, hb, hm, hs, hli⟩ := exportLayer_eq hfi
  subst hli
  have hsd : ∀ e, e ∈ base ++ mixer ++ shared → e ∈ sd := by
    intro e he
    have hlayers : e ∈ layers := hsub e he
    rcases hcase with ⟨_, rfl⟩ | ⟨lmh, _, rfl⟩
    · exact List.mem_append.mpr (Or.inr hlayers)
    · exact List.mem_append.mpr (Or.inr hlayers)
  have hkey : ∀ e, e ∈ base ++ mixer ++ shared → e.1 ∈ sd.map Prod.fst :=
    fun e he => List.mem_map_of_mem Prod.fst (hsd e he)
  obtain ⟨ln1, ln2, gate, cfc, moeIn, cproj, h1, h2, h3, h4, h5, h6, hb'⟩ := layerBase_eq hb
  have hbase : ∀ e, e ∈ base → e.1 ∈ sd.map Prod.fst := fun e he =>
    hkey e (List.mem_append.mpr (Or.inl (List.mem_append.mpr (Or.inl he))))
  have hmixer : ∀ e, e ∈ mixer → e.1 ∈ sd.map Prod.fst := fun e he =>
    hkey e (List.mem_append.mpr (Or.inl (List.mem_append.mpr (Or.inr he))))
  refine ⟨hbase (tgtName i ".input_layernorm.weight", ln1) (by rw [hb']; simp),
    hbase (tgtName i ".post_attention_layernorm.weight", ln2) (by rw [hb']; simp),
    hbase (tgtName i ".block_sparse_moe.router.layer.weight", gate) (by rw [hb']; simp),
    hbase (tgtName i ".block_sparse_moe.input_linear.weight", moeIn) (by rw [hb']; simp),
    hbase (tgtName i ".block_sparse_moe.output_linear.weight", cproj) (by rw [hb']; simp),
    ?_, ?_⟩
  · intro hbt
    obtain ⟨bt, hbt', hdisj⟩ := layerMixer_eq hm
    rw [hbt] at hbt'
    have hbtv : bt = "mamba" := (Option.some.inj hbt').symm
    subst hbtv
    rcases hdisj with ⟨_, t1, t2, t3, t4, t5, t6, t7, t8,
        g1, g2, g3, g4, g5, g6, g7, g8, hm'⟩ | ⟨hattn, _⟩ | ⟨hna, _, _⟩
    · subst hm'
      exact ⟨hmixer (tgtName i ".mamba.conv1d.weight", t1) (by simp),
        hmixer (tgtName i ".mamba.conv1d.bias", t2) (by simp),
        hmixer (tgtName i ".mamba.in_proj.weight", t3) (by simp),
        hmixer (tgtName i ".mamba.dt_bias", t4) (by simp),
        hmixer (tgtName i ".mamba.A_log", t5) (by simp),
        hmixer (tgtName i ".mamba.D", t6) (by simp),
        hmixer (tgtName i ".mamba.out_proj.weight", t7) (by simp),
        hmixer (tgtName i ".mamba.norm.weight", t8) (by simp)⟩
    · exact absurd hattn (by decide)
    · exact absurd rfl hna
  · intro hbt
    obtain ⟨bt, hbt', hdisj⟩ := layerMixer_eq hm
    rw [hbt] at hbt'
    have hbtv : bt = "attention" := (Option.some.inj hbt').symm
    subst hbtv
    rcases hdisj with ⟨hmm, _⟩ | ⟨_, cattn, qkv, oproj, g1, g2, g3, hm'⟩ | ⟨_, hna, _⟩
    · exact absurd hmm (by decide)
    · subst hm'
      exact ⟨hmixer (tgtName i ".self_attn.q_proj.weight", qkv.1) (by simp),
        hmixer (tgtName i ".self_attn.k_proj.weight", qkv.2.1) (by simp),
        hmixer (tgtName i ".self_attn.v_proj.weight", qkv.2.2) (by simp),
        hmixer (tgtName i ".self_attn.o_proj.weight", oproj) (by simp)⟩
    · exact absurd rfl hna

theorem digitChar_isDigit (d : Nat) (hd : d < 10) : (Nat.digitChar d).isDigit = true := by
  interval_cases d <;> rfl

theorem digitChar_val_sub (d : Nat) (hd : d < 10) : (Nat.digitChar d).toNat - 48 = d := by
  interval_cases d <;> rfl

theorem natDigitsRev_isDigit :
    ∀ (fuel n : Nat), ∀ c ∈ natDigitsRev fuel n, c.isDigit = true := by
  intro fuel
  induction fuel with
  | zero => intro n c hc; simp [natDigitsRev] at hc
  | succ fuel ih =>
      intro n c hc
      by_cases hn : n = 0
      · subst hn; simp [natDigitsRev] at hc
      · simp only [natDigitsRev, if_neg hn, List.mem_cons] at hc
        rcases hc with rfl | hc
        · exact digitChar_isDigit _ (Nat.mod_lt _ (by omega))
        · exact ih _ c hc

theorem digitsVal_natDigitsRev :
    ∀ (fuel n : Nat), n ≤ fuel → digitsVal (natDigitsRev fuel n) = n := by
  intro fuel
  induction fuel with
  | zero => intro n hn; interval_cases n; rfl
  | succ fuel ih =>
      intro n hn
      by_cases h0 : n = 0
      · subst h0; rfl
      · simp only [natDigitsRev, if_neg h0, digitsVal]
        rw [digitChar_val_sub _ (Nat.mod_lt _ (by omega)), ih (n / 10) (by omega)]
        omega

theorem natStr_val (n : Nat) : digitsVal (natStr n).data.reverse = n := by
  by_cases h0 : n = 0
  · subst h0; rfl
  · simp only [natStr, if_neg h0]
    show digitsVal (natDigitsRev n n).reverse.reverse = n
    rw [List.reverse_reverse]
    exact digitsVal_natDigitsRev n n le_rfl

theorem natStr_injective {m n : Nat} (h : natStr m = natStr n) : m = n := by
  have hm := natStr_val m
  rw [h, natStr_val n] at hm
  exact hm.symm

theorem natStr_isDigit (n : Nat) : ∀ c ∈ (natStr n).data, c.isDigit = true := by
  by_cases h0 : n = 0
  · subst h0
    intro c hc
    have : c = '0' := by simpa [natStr] using hc
    subst this
    rfl
  · intro c hc
    simp only [natStr, if_neg h0] at hc
    rw [List.mem_reverse] at hc
    exact natDigitsRev_isDigit n n c hc

theorem digit_prefix_cancel :
    ∀ (l₁ l₂ r₁ r₂ : List Char), (∀ c ∈ l₁, c.isDigit = true) →
      (∀ c ∈ l₂, c.isDigit = true) →
      r₁.head? = some '.' → r₂.head? = some '.' →
      l₁ ++ r₁ = l₂ ++ r₂ → l₁ = l₂ ∧ r₁ = r₂ := by
  intro l₁
  induction l₁ with
  | nil =>
      intro l₂ r₁ r₂ h1 h2 hr1 hr2 heq
      cases l₂ with
      | nil => exact ⟨rfl, heq⟩
      | cons c l₂' =>
          exfalso
          simp only [List.nil_append, List.cons_append] at heq
          rw [heq] at hr1
          simp only [List.head?_cons, Option.some.injEq] at hr1
          subst hr1
          have := h2 '.' (List.mem_cons_self _ _)
          simp at this
  | cons c l₁' ih =>
      intro l₂ r₁ r₂ h1 h2 hr1 hr2 heq
      cases l₂ with
      | nil =>
          exfalso
          simp only [List.nil_append, List.cons_append] at heq
          rw [← heq] at hr2
          simp only [List.head?_cons, Option.some.injEq] at hr2
          subst hr2
          have := h1 '.' (List.mem_cons_self _ _)
          simp at this
      | cons c₂ l₂' =>
          simp only [List.cons_append, List.cons.injEq] at heq
          obtain ⟨rfl, heq'⟩ := heq
          obtain ⟨hl, hr⟩ := ih l₂' r₁ r₂ (fun x hx => h1 x (List.mem_cons_of_mem _ hx))
            (fun x hx => h2 x (List.mem_cons_of_mem _ hx)) hr1 hr2 heq'
          exact ⟨by rw [hl], hr⟩

theorem tgtName_data (i : Nat) (s : String) :
    (tgtName i s).data = "model.layers.".data ++ ((natStr i).data ++ s.data) := by
  simp [tgtName, String.data_append, List.append_assoc]

theorem tgtName_inj {i j : Nat} {s t : String} (h : tgtName i s = tgtName j t)
    (hs : s.data.head? = some '.') (ht : t.data.head? = some '.') : i = j ∧ s = t := by
  have hd : (tgtName i s).data = (tgtName j t).data := by rw [h]
  rw [tgtName_data, tgtName_data] at hd
  have hd' := List.append_cancel_left hd
  obtain ⟨h1, h2⟩ := digit_prefix_cancel _ _ _ _ (natStr_isDigit i) (natStr_isDigit j)
    hs ht hd'
  exact ⟨natStr_injective (String.ext h1), String.ext h2⟩

theorem tgtName_take (i : Nat) (s : String) :
    (tgtName i s).data.take 13 = "model.layers.".data := by
  rw [tgtName_data]
  exact List.take_left' (by decide)

theorem tgtName_ne (i : Nat) (s : String) (g : String)
    (hg : g.data.take 13 ≠ "model.layers.".data) : tgtName i s ≠ g := by
  intro h
  rw [← h, tgtName_take] at hg
  exact hg rfl

theorem exportLayer_keys {α : Type} {swm : String → Option (Tensor α)} {types : List String}
    {numHeads numKeyValueHeads headDim : Nat}
    {split : Tensor α → Nat → Nat → Nat → String → Option (Tensor α × Tensor α × Tensor α)}
    {aht : String} {i : Nat} {l : List (String × Tensor α)}
    (h : exportLayer swm types numHeads numKeyValueHeads headDim split aht i = some l) :
    ∃ ss : List String, l.map Prod.fst = ss.map (tgtName i) ∧ ss.Nodup ∧
      ∀ s ∈ ss, s.data.head? = some '.' := by
  obtain ⟨base, mixer, shared, hb, hm, hs, hli⟩ := exportLayer_eq h
  subst hli
  obtain ⟨ln1, ln2, gate, cfc, moeIn, cproj, e1, e2, e3, e4, e5, e6, hb'⟩ := layerBase_eq hb
  subst hb'
  obtain ⟨bt, hbt, hdisj⟩ := layerMixer_eq hm
  rcases layerShared_eq hs with ⟨_, hs'⟩ | ⟨t', sIn, sOut, g1, g2, g3, hs'⟩
  · subst hs'
    rcases hdisj with ⟨_, t1, t2, t3, t4, t5, t6, t7, t8, f1, f2, f3, f4, f5, f6, f7, f8, hm'⟩ |
      ⟨_, ca, qkv, op, f1, f2, f3, hm'⟩ | ⟨_, _, hm'⟩ <;> subst hm'
    · exact ⟨[".input_layernorm.weight", ".post_attention_layernorm.weight",
        ".block_sparse_moe.router.layer.weight", ".block_sparse_moe.input_linear.weight",
        ".block_sparse_moe.output_linear.weight", ".mamba.conv1d.weight",
        ".mamba.conv1d.bias", ".mamba.in_proj.weight", ".mamba.dt_bias", ".mamba.A_log",
        ".mamba.D", ".mamba.out_proj.weight", ".mamba.norm.weight"],
        rfl, by decide, by decide⟩
    · exact ⟨[".input_layernorm.weight", ".post_attention_layernorm.weight",
        ".block_sparse_moe.router.layer.weight", ".block_sparse_moe.input_linear.weight",
        ".block_sparse_moe.output_linear.weight", ".self_attn.q_proj.weight",
        ".self_attn.k_proj.weight", ".self_attn.v_proj.weight", ".self_attn.o_proj.weight"],
        rfl, by decide, by decide⟩
    · exact ⟨[".input_layernorm.weight", ".post_attention_layernorm.weight",
        ".block_sparse_moe.router.layer.weight", ".block_sparse_moe.input_linear.weight",
        ".block_sparse_moe.output_linear.weight"], rfl, by decide, by decide⟩
  · subst hs'
    rcases hdisj with ⟨_, t1, t2, t3, t4, t5, t6, t7, t8, f1, f2, f3, f4, f5, f6, f7, f8, hm'⟩ |
      ⟨_, ca, qkv, op, f1, f2, f3, hm'⟩ | ⟨_, _, hm'⟩ <;> subst hm'
    · exact ⟨[".input_layernorm.weight", ".post_attention_layernorm.weight",
        ".block_sparse_moe.router.layer.weight", ".block_sparse_moe.input_linear.weight",
        ".block_sparse_moe.output_linear.weight", ".mamba.conv1d.weight",
        ".mamba.conv1d.bias", ".mamba.in_proj.weight", ".mamba.dt_bias", ".mamba.A_log",
        ".mamba.D", ".mamba.out_proj.weight", ".mamba.norm.weight",
        ".shared_mlp.input_linear.weight", ".shared_mlp.output_linear.weight"],
        rfl, by decide, by decide⟩
    · exact ⟨[".input_layernorm.weight", ".post_attention_layernorm.weight",
        ".block_sparse_moe.router.layer.weight", ".block_sparse_moe.input_linear.weight",
        ".block_sparse_moe.output_linear.weight", ".self_attn.q_proj.weight",
        ".self_attn.k_proj.weight", ".self_attn.v_proj.weight", ".self_attn.o_proj.weight",
        ".shared_mlp.input_linear.weight", ".shared_mlp.output_linear.weight"],
        rfl, by decide, by decide⟩
    · exact ⟨[".input_layernorm.weight", ".post_attention_layernorm.weight",
        ".block_sparse_moe.router.layer.weight", ".block_sparse_moe.input_linear.weight",
        ".block_sparse_moe.output_linear.weight", ".shared_mlp.input_linear.weight",
        ".shared_mlp.output_linear.weight"], rfl, by decide, by decide⟩

theorem exportLayers_keys {α : Type} {f : Nat → Option (List (String × Tensor α))}
    (hf : ∀ i li, f i = some li → ∃ ss : List String,
      li.map Prod.fst = ss.map (tgtName i) ∧ ss.Nodup ∧
      ∀ s ∈ ss, s.data.head? = some '.') :
    ∀ {n : Nat} {ys : List (String × Tensor α)}, exportLayers f n = some ys →
      (ys.map Prod.fst).Nodup ∧
      ∀ k ∈ ys.map Prod.fst, ∃ j, j < n ∧ ∃ s, s.data.head? = some '.' ∧ k = tgtName j s := by
  intro n
  induction n with
  | zero =>
      intro ys h
      injection h with h
      subst h
      exact ⟨List.nodup_nil, by intro k hk; simp at hk⟩
  | succ n ih =>
      intro ys h
      simp only [exportLayers, Option.bind_eq_bind, Option.bind_eq_some, Option.pure_def,
        Option.some.injEq] at h
      obtain ⟨rest, hrest, cur, hcur, hys⟩ := h
      subst hys
      obtain ⟨hnd, hchar⟩ := ih hrest
      obtain ⟨ss, hmap, hssnd, hdot⟩ := hf n cur hcur
      have hcurnd : (cur.map Prod.fst).Nodup := by
        rw [hmap]
        refine List.Nodup.map_on ?_ hssnd
        intro x hx y hy hxy
        exact (tgtName_inj hxy (hdot x hx) (hdot y hy)).2
      have hdisj : (rest.map Prod.fst).Disjoint (cur.map Prod.fst) := by
        intro k hk1 hk2
        obtain ⟨j, hj, s, hds, rfl⟩ := hchar k hk1
        rw [hmap] at hk2
        obtain ⟨s', hs', hk⟩ := List.mem_map.mp hk2
        have hnj := (tgtName_inj hk (hdot s' hs') hds).1
        omega
      constructor
      · rw [List.map_append]
        exact hnd.append hcurnd hdisj
      · intro k hk
        rw [List.map_append] at hk
        rcases List.mem_append.mp hk with hk | hk
        · obtain ⟨j, hj, s, hds, rfl⟩ := hchar k hk
          exact ⟨j, by omega, s, hds, rfl⟩
        · rw [hmap] at hk
          obtain ⟨s', hs', rfl⟩ := List.mem_map.mp hk
          exact ⟨n, by omega, s', hdot s' hs', rfl⟩

/-- C5 (corrected): the tensor-name remapping is injective, every produced
target name being distinct, but the configuration-field mapping is not
injective (see the counterexample), so the full field-and-tensor mapping is
not bijective as claimed. -/
theorem exportStateDict_target_names_nodup {α : Type}
    (swm : String → Option (Tensor α)) (numLayers : Nat) (types : List String)
    (numHeads numKeyValueHeads headDim : Nat)
    (split : Tensor α → Nat → Nat → Nat → String → Option (Tensor α × Tensor α × Tensor α))
    (ght : Nat → Nat → String) (sd : List (String × Tensor α))
    (h : exportStateDictToHuggingface swm numLayers types numHeads numKeyValueHeads headDim
        split ght = some sd) :
    (sd.map Prod.fst).Nodup := by
  obtain ⟨wte, lnf, layers, hw, hl, hlay, hcase⟩ := exportStateDict_eq h
  obtain ⟨hnd, hchar⟩ := exportLayers_keys (fun i li hli => exportLayer_keys hli) hlay
  have hnotin : ∀ g : String, g.data.take 13 ≠ "model.layers.".data →
      g ∉ layers.map Prod.fst := by
    intro g hg hmem
    obtain ⟨j, hj, s, hds, rfl⟩ := hchar g hmem
    exact hg (tgtName_take j s)
  rcases hcase with ⟨_, rfl⟩ | ⟨lmh, _, rfl⟩
  · rw [List.map_append]
    refine List.Nodup.append ?_ hnd ?_
    · show (["model.embed_tokens.weight", "model.norm.weight"] : List String).Nodup
      decide
    · intro k hk1 hk2
      have hk1' : k = "model.embed_tokens.weight" ∨ k = "model.norm.weight" := by
        simpa using hk1
      rcases hk1' with rfl | rfl
      · exact hnotin _ (by decide) hk2
      · exact hnotin _ (by decide) hk2
  · rw [List.map_append]
    refine List.Nodup.append ?_ hnd ?_
    · show (["model.embed_tokens.weight", "model.norm.weight",
        "lm_head.weight"] : List String).Nodup
      decide
    · intro k hk1 hk2
      have hk1' : k = "model.embed_tokens.weight" ∨ k = "model.norm.weight" ∨
          k = "lm_head.weight" := by
        simpa using hk1
      rcases hk1' with rfl | rfl | rfl
      · exact hnotin _ (by decide) hk2
      · exact hnotin _ (by decide) hk2
      · exact hnotin _ (by decide) hk2

/-- Witness for C5's amended statement on the concrete two-layer export. -/
theorem exportStateDict_target_names_nodup_witness : (wSd.map Prod.fst).Nodup :=
  exportStateDict_target_names_nodup wSwm 2 wTypes 1 1 1 wSplit wGht wSd rfl

/-- Witness for C1: the MoE input projection of layer 0 in the concrete
export arises from a source tensor via the GLU reorder. -/
theorem exportStateDict_three_transformations_witness :
    (∃ src, wSwm src = some (Tensor.dim [Tensor.dim [Tensor.scalar (6 : Int),
        Tensor.scalar 5]])) ∨
    (∃ src fused qkv, wSwm src = some fused ∧
      wSplit fused 1 1 1 (wGht 1 1) = some qkv ∧
      (Tensor.dim [Tensor.dim [Tensor.scalar (6 : Int), Tensor.scalar 5]] = qkv.1 ∨
       Tensor.dim [Tensor.dim [Tensor.scalar (6 : Int), Tensor.scalar 5]] = qkv.2.1 ∨
       Tensor.dim [Tensor.dim [Tensor.scalar (6 : Int), Tensor.scalar 5]] = qkv.2.2)) ∨
    (∃ src w d, wSwm src = some w ∧
      splitAndReorderForGlu w d = some (Tensor.dim [Tensor.dim [Tensor.scalar (6 : Int),
        Tensor.scalar 5]])) :=
  exportStateDict_three_transformations wSwm 2 wTypes 1 1 1 wSplit wGht wSd rfl
    "model.layers.0.block_sparse_moe.input_linear.weight"
    (Tensor.dim [Tensor.dim [Tensor.scalar 6, Tensor.scalar 5]]) (by simp [wSd])

/-- Witness for C2 at layer 0 of the concrete export. -/
theorem exportStateDict_attention_split_witness :
    ∃ fused qkv oproj,
      wSwm (srcName 0 ".sequence_mixer.c_attn.weight") = some fused ∧
      wSplit fused 1 1 1 (wGht 1 1) = some qkv ∧
      (tgtName 0 ".self_attn.q_proj.weight", qkv.1) ∈ wSd ∧
      (tgtName 0 ".self_attn.k_proj.weight", qkv.2.1) ∈ wSd ∧
      (tgtName 0 ".self_attn.v_proj.weight", qkv.2.2) ∈ wSd ∧
      wSwm (srcName 0 ".sequence_mixer.c_proj.weight") = some oproj ∧
      (tgtName 0 ".self_attn.o_proj.weight", oproj) ∈ wSd :=
  exportStateDict_attention_split wSwm 2 wTypes 1 1 1 wSplit wGht wSd rfl 0 (by omega) rfl

/-- Witness for C3 at layer 1 of the concrete export. -/
theorem exportStateDict_glu_reorder_witness :
    (∃ cfc moeIn, wSwm (srcName 1 ".mlp_block.c_fc.weight") = some cfc ∧
       splitAndReorderForGlu cfc 1 = some moeIn ∧
       (tgtName 1 ".block_sparse_moe.input_linear.weight", moeIn) ∈ wSd) ∧
    (∀ t, wSwm (srcName 1 ".mlp_block.c_fc_shared.weight") = some t →
       ∃ sIn, splitAndReorderForGlu t 0 = some sIn ∧
         (tgtName 1 ".shared_mlp.input_linear.weight", sIn) ∈ wSd) :=
  exportStateDict_glu_reorder wSwm 2 wTypes 1 1 1 wSplit wGht wSd rfl 1 (by omega)

/-- Witness for C4: the mamba conv1d weight of layer 1 is present in the
concrete export. -/
theorem exportStateDict_schema_coverage_witness :
    tgtName 1 ".mamba.conv1d.weight" ∈ wSd.map Prod.fst :=
  (((exportStateDict_schema_coverage wSwm 2 wTypes 1 1 1 wSplit wGht wSd rfl).2.2 1
    (by omega)).2.2.2.2.2.1 rfl).1

/-- Witness for C6 at concrete inputs. -/
theorem export_deterministic_witness :
    exportConfigToHuggingface wConfig = exportConfigToHuggingface wConfig ∧
    exportStateDictToHuggingface wSwm 2 wTypes 1 1 1 wSplit wGht =
      exportStateDictToHuggingface wSwm 2 wTypes 1 1 1 wSplit wGht :=
  export_deterministic wConfig wSwm 2 wTypes 1 1 1 wSplit wGht

/-- Witness for C7 at the concrete configuration. -/
theorem exportConfig_scalar_fields_witness :
    wGranite.vocab_size = wConfig.vocab_size ∧
    wGranite.max_position_embeddings = wConfig.max_position_embeddings ∧
    wGranite.hidden_size = wConfig.hidden_size ∧
    wGranite.num_hidden_layers = wConfig.num_layers ∧
    wGranite.rms_norm_eps = wConfig.layer_norm_epsilon ∧
    (∃ siz, checkEqualForAllAndGetValue
        (wConfig.mlp_blocks.map (fun b => b.shared_intermediate_size)) none = .ok siz ∧
      wGranite.shared_intermediate_size = siz.getD 0) ∧
    wGranite.embedding_multiplier = wConfig.m_emb.getD 1 ∧
    wGranite.residual_multiplier = wConfig.m_residual.getD 1 ∧
    wGranite.logits_scaling = wConfig.m_width.getD 1 :=
  exportConfig_scalar_fields wConfig wGranite rfl

/-- Witness for C9 at the concrete configuration. -/
theorem getSequenceMixerBlockTypes_spec_witness :
    (getSequenceMixerBlockTypes wConfig).length = wConfig.sequence_mixer_blocks.length :=
  (getSequenceMixerBlockTypes_spec wConfig).1
